import Mathlib

/-!
Verification of the JerryScript remote-debugger client (iotjs-vscode-extension).

The development shallowly embeds the protocol handler of
`src/JerryProtocolHandler.ts` together with the byte codec and breakpoint
model it relies on.  Byte buffers (`Uint8Array`) are `List Nat` with every
element below 256 at use sites; JavaScript strings are `List Nat` of UTF-16
code units; JavaScript objects with numeric keys are association lists.

`JerryUtils.ts`, `JerryBreakpoints.ts` and `JerryProtocolConstants.ts` are not
part of the provided sources (only their test suites and callers are); the
corresponding definitions below are modelled from the specification and are
marked as such in their doc comments.
-/

namespace Jerry

/-- Modelled from the spec: the numeric protocol tags live in the missing
`JerryProtocolConstants.ts` ("Exact numeric tags are a compatibility surface
pinned by a single constants table shared with the engine").  Only the
distinctness of the tags matters for the development. -/
def JERRY_DEBUGGER_VERSION : Nat := 1

namespace SERVER

/-- Modelled from the spec: server→client tag table of §6. -/
def JERRY_DEBUGGER_CONFIGURATION : Nat := 1

def JERRY_DEBUGGER_BYTE_CODE_CP : Nat := 3

def JERRY_DEBUGGER_PARSE_FUNCTION : Nat := 4

def JERRY_DEBUGGER_BREAKPOINT_LIST : Nat := 5

def JERRY_DEBUGGER_BREAKPOINT_OFFSET_LIST : Nat := 6

def JERRY_DEBUGGER_SOURCE_CODE : Nat := 7

def JERRY_DEBUGGER_SOURCE_CODE_END : Nat := 8

def JERRY_DEBUGGER_SOURCE_CODE_NAME : Nat := 9

def JERRY_DEBUGGER_SOURCE_CODE_NAME_END : Nat := 10

def JERRY_DEBUGGER_FUNCTION_NAME : Nat := 11

def JERRY_DEBUGGER_FUNCTION_NAME_END : Nat := 12

def JERRY_DEBUGGER_RELEASE_BYTE_CODE_CP : Nat := 14

def JERRY_DEBUGGER_BREAKPOINT_HIT : Nat := 16

def JERRY_DEBUGGER_EXCEPTION_HIT : Nat := 17

def JERRY_DEBUGGER_EXCEPTION_STR : Nat := 18

def JERRY_DEBUGGER_EXCEPTION_STR_END : Nat := 19

def JERRY_DEBUGGER_BACKTRACE : Nat := 20

def JERRY_DEBUGGER_BACKTRACE_END : Nat := 21

def JERRY_DEBUGGER_EVAL_RESULT : Nat := 22

def JERRY_DEBUGGER_EVAL_RESULT_END : Nat := 23

def JERRY_DEBUGGER_WAIT_FOR_SOURCE : Nat := 24

end SERVER

namespace CLIENT

/-- Modelled from the spec: client→server tag table of §6. -/
def JERRY_DEBUGGER_FREE_BYTE_CODE_CP : Nat := 1

def JERRY_DEBUGGER_UPDATE_BREAKPOINT : Nat := 2

def JERRY_DEBUGGER_STOP : Nat := 6

def JERRY_DEBUGGER_CLIENT_SOURCE : Nat := 8

def JERRY_DEBUGGER_CLIENT_SOURCE_PART : Nat := 9

def JERRY_DEBUGGER_NO_MORE_SOURCES : Nat := 10

def JERRY_DEBUGGER_CONTEXT_RESET : Nat := 11

def JERRY_DEBUGGER_CONTINUE : Nat := 12

def JERRY_DEBUGGER_STEP : Nat := 13

def JERRY_DEBUGGER_NEXT : Nat := 14

def JERRY_DEBUGGER_FINISH : Nat := 15

def JERRY_DEBUGGER_GET_BACKTRACE : Nat := 16

def JERRY_DEBUGGER_EVAL : Nat := 17

def JERRY_DEBUGGER_EVAL_PART : Nat := 18

end CLIENT

/-- Modelled from the spec: `EVAL_SUBTYPE.JERRY_DEBUGGER_EVAL_EVAL` is the
one-character string prefixed to an eval expression (code unit 0, as pinned by
the `evaluate` tests, which show the byte after the 5-byte header to be 0). -/
def EVAL_SUBTYPE_EVAL : Nat := 0

/-- `ByteConfig` of `JerryUtils.ts` (declaration visible through its uses and
tests): compressed-pointer width and endianness of the session. -/
structure ByteConfig where
  cpointerSize : Nat
  littleEndian : Bool
deriving DecidableEq, Repr

/-! ## Byte codec (modelled from the spec §4.1, pinned by `JerryUtils` tests) -/

/-- Modelled from the spec: `getUint32` of the missing `JerryUtils.ts`.
Reads four bytes at `offset` in the endianness given. -/
def getUint32 (littleEndian : Bool) (data : List Nat) (offset : Nat) : Nat :=
  let b := fun i => data.getD (offset + i) 0
  if littleEndian then
    b 0 + b 1 * 256 + b 2 * 65536 + b 3 * 16777216
  else
    b 0 * 16777216 + b 1 * 65536 + b 2 * 256 + b 3

/-- The four bytes of a 32-bit value in the given endianness. -/
def uint32Bytes (littleEndian : Bool) (value : Nat) : List Nat :=
  let v := value % 4294967296
  if littleEndian then
    [v % 256, v / 256 % 256, v / 65536 % 256, v / 16777216 % 256]
  else
    [v / 16777216 % 256, v / 65536 % 256, v / 256 % 256, v % 256]

/-- Modelled from the spec: `setUint32` of the missing `JerryUtils.ts`.
Writes four bytes at `offset`; out-of-range writes are dropped, as on a
`Uint8Array` (`List.set` is the identity past the end). -/
def setUint32 (littleEndian : Bool) (arr : List Nat) (offset value : Nat) : List Nat :=
  let bs := uint32Bytes littleEndian value
  ((((arr.set offset (bs.getD 0 0)).set (offset + 1) (bs.getD 1 0)).set
      (offset + 2) (bs.getD 2 0)).set (offset + 3) (bs.getD 3 0))

/-- Modelled from the spec: `assembleUint8Arrays` of the missing
`JerryUtils.ts`, pinned by its tests: drops the leading tag byte of the new
chunk and appends it to the accumulator. -/
def assembleUint8Arrays (a : Option (List Nat)) (b : List Nat) : List Nat :=
  match a with
  | none => b.drop 1
  | some a0 => if b.length ≤ 1 then a0 else a0 ++ b.drop 1

/-- Modelled from the spec: CESU-8 encoding of one UTF-16 code unit
(`u < 0x10000`): identical to UTF-8 for one-, two- and three-byte forms,
with surrogate values encoded literally as three-byte forms. -/
def encodeUnit (u : Nat) : List Nat :=
  if u < 128 then [u]
  else if u < 2048 then [192 + u / 64, 128 + u % 64]
  else [224 + u / 4096, 128 + u / 64 % 64, 128 + u % 64]

/-- Modelled from the spec: the byte-level decoding loop of `cesu8ToString`
in the missing `JerryUtils.ts`.  Produces the UTF-16 code units of the
decoded JavaScript string; a truncated trailing sequence decodes to nothing
(the behavior on malformed input is not pinned by the spec or tests). -/
def cesu8Units : List Nat → List Nat
  | [] => []
  | [b] => if b < 128 then [b] else []
  | [b, b2] =>
    if b < 128 then b :: cesu8Units [b2]
    else if b < 224 then [(b - 192) * 64 + (b2 - 128)]
    else []
  | b :: b2 :: b3 :: rest =>
    if b < 128 then b :: cesu8Units (b2 :: b3 :: rest)
    else if b < 224 then ((b - 192) * 64 + (b2 - 128)) :: cesu8Units (b3 :: rest)
    else ((b - 224) * 4096 + (b2 - 128) * 64 + (b3 - 128)) :: cesu8Units rest

/-- Modelled from the spec: `cesu8ToString` of the missing `JerryUtils.ts`.
The result is a JavaScript string, i.e. a sequence of UTF-16 code units. -/
def cesu8ToString (data : List Nat) : List Nat :=
  cesu8Units data

/-- Modelled from the spec: `stringToCesu8 (str, headerSize, config)` of the
missing `JerryUtils.ts`.  Encodes every UTF-16 code unit of `str` in CESU-8
after `headerSize` reserved zero bytes that the caller fills with a header;
the empty string maps to the empty buffer with no header (pinned by the
tests). -/
def stringToCesu8 (str : List Nat) (headerSize : Nat) (_config : ByteConfig) : List Nat :=
  if str = [] then []
  else List.replicate headerSize 0 ++ (str.map encodeUnit).flatten

/-- The UTF-16 code units of one Unicode scalar value: itself in the BMP,
and a surrogate pair for a supplementary code point. -/
def scalarToUnits (c : Nat) : List Nat :=
  if c < 65536 then [c]
  else [55296 + (c - 65536) / 1024, 56320 + (c - 65536) % 1024]

/-- The JavaScript string (UTF-16 code-unit sequence) denoted by a Unicode
string given as its scalar values. -/
def scalarsToUnits (s : List Nat) : List Nat :=
  (s.map scalarToUnits).flatten

/-- Interpretation of a JavaScript string as a Unicode string: a high
surrogate followed by a low surrogate combines into the supplementary code
point; any other unit stands for itself. -/
def unitsToScalars : List Nat → List Nat
  | [] => []
  | [u] => [u]
  | u :: u2 :: rest =>
    if 55296 ≤ u ∧ u < 56320 then
      if 56320 ≤ u2 ∧ u2 < 57344 then
        (65536 + (u - 55296) * 1024 + (u2 - 56320)) :: unitsToScalars rest
      else u :: unitsToScalars (u2 :: rest)
    else u :: unitsToScalars (u2 :: rest)

/-- A Unicode scalar value: a code point that is not a surrogate. -/
def IsUnicodeScalar (c : Nat) : Prop :=
  c < 1114112 ∧ ¬(55296 ≤ c ∧ c < 57344)

instance (c : Nat) : Decidable (IsUnicodeScalar c) := by
  unfold IsUnicodeScalar; infer_instance

/-! ### CESU-8 round-trip lemmas -/

theorem cesu8Units_onebyte (b : Nat) (h1 : b < 128) (bs : List Nat) :
    cesu8Units (b :: bs) = b :: cesu8Units bs := by
  match bs with
  | [] => simp [cesu8Units, h1]
  | [c] => simp [cesu8Units, h1]
  | c :: d :: es => simp [cesu8Units, h1]

theorem cesu8Units_twobyte (b b2 : Nat) (h1 : ¬b < 128) (h2 : b < 224) (bs : List Nat) :
    cesu8Units (b :: b2 :: bs) = ((b - 192) * 64 + (b2 - 128)) :: cesu8Units bs := by
  match bs with
  | [] => simp [cesu8Units, h1, h2]
  | c :: cs => simp [cesu8Units, h1, h2]

theorem cesu8Units_threebyte (b b2 b3 : Nat) (h1 : ¬b < 128) (h2 : ¬b < 224)
    (bs : List Nat) :
    cesu8Units (b :: b2 :: b3 :: bs) =
      ((b - 224) * 4096 + (b2 - 128) * 64 + (b3 - 128)) :: cesu8Units bs := by
  simp [cesu8Units, h1, h2]

theorem cesu8Units_encodeUnit_append (u : Nat) (hu : u < 65536) (bs : List Nat) :
    cesu8Units (encodeUnit u ++ bs) = u :: cesu8Units bs := by
  by_cases h1 : u < 128
  · rw [encodeUnit, if_pos h1]
    simp only [List.cons_append, List.nil_append]
    exact cesu8Units_onebyte u h1 bs
  · by_cases h2 : u < 2048
    · have hb1 : ¬(192 + u / 64 < 128) := by omega
      have hb2 : 192 + u / 64 < 224 := by omega
      have hdm : 64 * (u / 64) + u % 64 = u := Nat.div_add_mod u 64
      rw [encodeUnit, if_neg h1, if_pos h2]
      simp only [List.cons_append, List.nil_append]
      rw [cesu8Units_twobyte _ _ hb1 hb2]
      have hv : (192 + u / 64 - 192) * 64 + (128 + u % 64 - 128) = u := by omega
      rw [hv]
    · have hb1 : ¬(224 + u / 4096 < 128) := by omega
      have hb2 : ¬(224 + u / 4096 < 224) := by omega
      have hdm1 : 4096 * (u / 4096) + u % 4096 = u := Nat.div_add_mod u 4096
      have hdm2 : 64 * (u / 64) + u % 64 = u := Nat.div_add_mod u 64
      have hdm3 : 64 * (u / 64 / 64) + u / 64 % 64 = u / 64 := Nat.div_add_mod (u / 64) 64
      have hdd : u / 64 / 64 = u / 4096 := by
        rw [Nat.div_div_eq_div_mul]
      rw [hdd] at hdm3
      rw [encodeUnit, if_neg h1, if_neg h2]
      simp only [List.cons_append, List.nil_append]
      rw [cesu8Units_threebyte _ _ _ hb1 hb2]
      have hv : (224 + u / 4096 - 224) * 4096 + (128 + u / 64 % 64 - 128) * 64 +
          (128 + u % 64 - 128) = u := by omega
      rw [hv]

theorem cesu8Units_join_encode (us : List Nat) (h : ∀ u ∈ us, u < 65536) :
    cesu8Units ((us.map encodeUnit).flatten) = us := by
  induction us with
  | nil => simp [cesu8Units]
  | cons u tl ih =>
    have hu : u < 65536 := h u (List.mem_cons_self u tl)
    have htl : ∀ v ∈ tl, v < 65536 := fun v hv => h v (List.mem_cons_of_mem u hv)
    simp only [List.map_cons, List.flatten_cons]
    rw [cesu8Units_encodeUnit_append u hu, ih htl]

theorem cesu8_roundtrip_units (cfg : ByteConfig) (us : List Nat)
    (h : ∀ u ∈ us, u < 65536) :
    cesu8ToString (stringToCesu8 us 0 cfg) = us := by
  cases us with
  | nil => simp [stringToCesu8, cesu8ToString, cesu8Units]
  | cons u tl =>
    rw [cesu8ToString, stringToCesu8]
    simp only [List.replicate, List.nil_append, reduceCtorEq, if_false]
    exact cesu8Units_join_encode (u :: tl) h

theorem unitsToScalars_cons_of_not_high (u : Nat) (hu : ¬(55296 ≤ u ∧ u < 56320))
    (xs : List Nat) : unitsToScalars (u :: xs) = u :: unitsToScalars xs := by
  match xs with
  | [] => simp [unitsToScalars]
  | v :: vs => simp [unitsToScalars, hu]

theorem unitsToScalars_pair (u u2 : Nat) (hu : 55296 ≤ u ∧ u < 56320)
    (h2 : 56320 ≤ u2 ∧ u2 < 57344) (xs : List Nat) :
    unitsToScalars (u :: u2 :: xs) =
      (65536 + (u - 55296) * 1024 + (u2 - 56320)) :: unitsToScalars xs := by
  simp [unitsToScalars, hu.1, hu.2, h2.1, h2.2]

theorem scalarsToUnits_bounds (s : List Nat) (h : ∀ c ∈ s, IsUnicodeScalar c) :
    ∀ u ∈ scalarsToUnits s, u < 65536 := by
  induction s with
  | nil => simp [scalarsToUnits]
  | cons c tl ih =>
    intro u hu
    have hc : IsUnicodeScalar c := h c (List.mem_cons_self c tl)
    have htl : ∀ x ∈ tl, IsUnicodeScalar x := fun x hx => h x (List.mem_cons_of_mem c hx)
    simp only [scalarsToUnits, List.map_cons, List.flatten_cons, List.mem_append] at hu
    rcases hu with hu | hu
    · unfold scalarToUnits at hu
      rcases hc with ⟨hlt, -⟩
      by_cases hbmp : c < 65536
      · rw [if_pos hbmp] at hu
        simp only [List.mem_singleton] at hu
        omega
      · rw [if_neg hbmp] at hu
        simp only [List.mem_cons, List.mem_singleton, List.not_mem_nil, or_false] at hu
        rcases hu with hu | hu <;> omega
    · exact ih htl u hu

theorem unitsToScalars_scalarsToUnits (s : List Nat)
    (h : ∀ c ∈ s, IsUnicodeScalar c) :
    unitsToScalars (scalarsToUnits s) = s := by
  induction s with
  | nil => simp [scalarsToUnits, unitsToScalars]
  | cons c tl ih =>
    have hc : IsUnicodeScalar c := h c (List.mem_cons_self c tl)
    have htl : ∀ x ∈ tl, IsUnicodeScalar x := fun x hx => h x (List.mem_cons_of_mem c hx)
    rcases hc with ⟨hlt, hns⟩
    have htls : (tl.map scalarToUnits).flatten = scalarsToUnits tl := rfl
    simp only [scalarsToUnits, List.map_cons, List.flatten_cons]
    by_cases hbmp : c < 65536
    · have hnh : ¬(55296 ≤ c ∧ c < 56320) := by omega
      rw [scalarToUnits, if_pos hbmp]
      simp only [List.cons_append, List.nil_append]
      rw [unitsToScalars_cons_of_not_high c hnh, htls, ih htl]
    · rw [scalarToUnits, if_neg hbmp]
      have hhi : 55296 ≤ 55296 + (c - 65536) / 1024 ∧ 55296 + (c - 65536) / 1024 < 56320 := by
        omega
      have hlo : 56320 ≤ 56320 + (c - 65536) % 1024 ∧ 56320 + (c - 65536) % 1024 < 57344 := by
        omega
      have hdm : 1024 * ((c - 65536) / 1024) + (c - 65536) % 1024 = c - 65536 :=
        Nat.div_add_mod (c - 65536) 1024
      simp only [List.cons_append, List.nil_append]
      rw [unitsToScalars_pair _ _ hhi hlo, htls, ih htl]
      have hv : 65536 + (55296 + (c - 65536) / 1024 - 55296) * 1024 +
          (56320 + (c - 65536) % 1024 - 56320) = c := by omega
      rw [hv]

theorem encodeUnit_length_three (u : Nat) (h1 : 2048 ≤ u) (h2 : u < 65536) :
    (encodeUnit u).length = 3 := by
  rw [encodeUnit, if_neg (by omega), if_neg (by omega)]
  rfl

theorem stringToCesu8_two (cfg : ByteConfig) (hi lo : Nat) :
    stringToCesu8 [hi, lo] 0 cfg = encodeUnit hi ++ encodeUnit lo := by
  rw [stringToCesu8]
  simp

theorem encodeUnit_no_fourbyte_lead (u : Nat) (hu : u < 65536) :
    ∀ b ∈ encodeUnit u, b < 240 := by
  intro b hb
  unfold encodeUnit at hb
  by_cases h1 : u < 128
  · rw [if_pos h1] at hb
    simp only [List.mem_singleton] at hb
    omega
  · by_cases h2 : u < 2048
    · rw [if_neg h1, if_pos h2] at hb
      simp only [List.mem_cons, List.mem_singleton, List.not_mem_nil, or_false] at hb
      rcases hb with hb | hb <;> omega
    · rw [if_neg h1, if_neg h2] at hb
      simp only [List.mem_cons, List.mem_singleton, List.not_mem_nil, or_false] at hb
      rcases hb with hb | hb | hb <;> omega

/-- C9: decoding the CESU-8 encoding of any Unicode string yields the string
again (stated over the scalar values; `scalarsToUnits` is the JavaScript
string denoting the Unicode string), and the encoder maps every supplementary
code point to two three-byte surrogate sequences, never to a four-byte UTF-8
sequence (every emitted byte is below 0xF0, and the two sequences are the
three-byte encodings of the surrogate halves). -/
theorem C9_cesu8_roundtrip_and_surrogates (cfg : ByteConfig) :
    (∀ s : List Nat, (∀ c ∈ s, IsUnicodeScalar c) →
      unitsToScalars (cesu8ToString (stringToCesu8 (scalarsToUnits s) 0 cfg)) = s) ∧
    (∀ s : List Nat, (∀ c ∈ s, IsUnicodeScalar c) →
      ∀ b ∈ stringToCesu8 (scalarsToUnits s) 0 cfg, b < 240) ∧
    (∀ c : Nat, 65536 ≤ c → c < 1114112 →
      stringToCesu8 (scalarToUnits c) 0 cfg =
        encodeUnit (55296 + (c - 65536) / 1024) ++ encodeUnit (56320 + (c - 65536) % 1024) ∧
      (encodeUnit (55296 + (c - 65536) / 1024)).length = 3 ∧
      (encodeUnit (56320 + (c - 65536) % 1024)).length = 3) := by
  refine ⟨?_, ?_, ?_⟩
  · intro s hs
    rw [cesu8_roundtrip_units cfg _ (scalarsToUnits_bounds s hs)]
    exact unitsToScalars_scalarsToUnits s hs
  · intro s hs b hb
    rw [stringToCesu8] at hb
    by_cases hemp : scalarsToUnits s = []
    · rw [if_pos hemp] at hb
      exact absurd hb (List.not_mem_nil b)
    · rw [if_neg hemp] at hb
      simp only [List.replicate, List.nil_append, List.mem_flatten, List.mem_map] at hb
      rcases hb with ⟨l, ⟨u, hu, rfl⟩, hbl⟩
      exact encodeUnit_no_fourbyte_lead u (scalarsToUnits_bounds s hs u hu) b hbl
  · intro c h1 h2
    have hhi1 : 2048 ≤ 55296 + (c - 65536) / 1024 := by omega
    have hhi2 : 55296 + (c - 65536) / 1024 < 65536 := by omega
    have hlo1 : 2048 ≤ 56320 + (c - 65536) % 1024 := by omega
    have hlo2 : 56320 + (c - 65536) % 1024 < 65536 := by omega
    refine ⟨?_, encodeUnit_length_three _ hhi1 hhi2, encodeUnit_length_three _ hlo1 hlo2⟩
    have hsp : scalarToUnits c =
        [55296 + (c - 65536) / 1024, 56320 + (c - 65536) % 1024] := by
      rw [scalarToUnits, if_neg (by omega)]
    rw [hsp]
    exact stringToCesu8_two cfg _ _

/-- Witness for C9 at a concrete input: the string "h😀" (scalar values
`[104, 128512]`) round-trips, every emitted byte is below 0xF0, and the
supplementary code point encodes as two three-byte sequences. -/
theorem C9_witness :
    (∀ c ∈ [104, 128512], IsUnicodeScalar c) ∧
    unitsToScalars (cesu8ToString
      (stringToCesu8 (scalarsToUnits [104, 128512]) 0 ⟨2, true⟩)) = [104, 128512] ∧
    (encodeUnit (55296 + (128512 - 65536) / 1024)).length = 3 := by
  have hval : ∀ c ∈ [104, 128512], IsUnicodeScalar c := by decide
  refine ⟨hval, (C9_cesu8_roundtrip_and_surrogates ⟨2, true⟩).1 [104, 128512] hval, ?_⟩
  exact ((C9_cesu8_roundtrip_and_surrogates ⟨2, true⟩).2.2 128512 (by norm_num)
    (by norm_num)).2.1

/-! ## Association lists

JavaScript objects with numeric keys (`FunctionMap`, `lines`, `offsets`,
`activeBreakpoints`, …) are modelled as association lists with
overwrite-on-insert semantics. -/

/-- Lookup of a numeric property, `m[k]`; `none` models `undefined`. -/
def lookupAssoc {α : Type} (m : List (Nat × α)) (k : Nat) : Option α :=
  (m.find? (fun p => p.1 == k)).map Prod.snd

/-- Property assignment `m[k] = v`: overwrites an existing key, otherwise
appends (JavaScript objects keep one binding per key). -/
def insertAssoc {α : Type} (m : List (Nat × α)) (k : Nat) (v : α) : List (Nat × α) :=
  if m.any (fun p => p.1 == k) then m.map (fun p => if p.1 == k then (k, v) else p)
  else m ++ [(k, v)]

/-- Property deletion. -/
def removeAssoc {α : Type} (m : List (Nat × α)) (k : Nat) : List (Nat × α) :=
  m.filter (fun p => p.1 != k)

/-! ## Breakpoint model

`JerryBreakpoints.ts` is not under the provided sources (only its test suite
is); `Breakpoint` and `ParsedFunction` are modelled from the spec §3 and
§4.4.2 and from the `JerryBreakpoints` tests. -/

/-- Modelled from the spec: a `Breakpoint` of the missing
`JerryBreakpoints.ts`.  The cyclic `func` back-reference is represented by
the owning function's compressed pointer (design note: "store functions in
an arena keyed by cpointer; Breakpoints reference functions by that key"). -/
structure Breakpoint where
  scriptId : Nat
  funcByteCodeCP : Nat
  line : Nat
  offset : Nat
  activeIndex : Int
deriving DecidableEq, Repr

/-- `ParserStackFrame` of `JerryProtocolHandler.ts` (strings are code-unit
lists; the optional `byteCodeCP` / `firstBreakpoint*` fields of the interface
are never assigned on frames and are omitted). -/
structure ParserStackFrame where
  isFunc : Bool
  scriptId : Nat
  line : Nat
  column : Nat
  name : List Nat
  source : List Nat
  sourceName : Option (List Nat)
  lines : List Nat
  offsets : List Nat
deriving DecidableEq, Repr

/-- Modelled from the spec: a `ParsedFunction` of the missing
`JerryBreakpoints.ts`.  `sourceLines` holds the newline-split source the
handler assigns on promotion (§4.4.2). -/
structure ParsedFunction where
  byteCodeCP : Nat
  scriptId : Nat
  isFunc : Bool
  line : Nat
  column : Nat
  name : List Nat
  sourceLines : List (List Nat)
  sourceName : Option (List Nat)
  lines : List (Nat × Breakpoint)
  offsets : List (Nat × Breakpoint)
  firstBreakpointLine : Option Nat
  firstBreakpointOffset : Option Nat
deriving DecidableEq, Repr

/-- Modelled from the spec: the `ParsedFunction` constructor, §4.4.2:
"ParsedFunction construction pairs `lines[i]` with `offsets[i]` positionally:
for each `i`, a Breakpoint `{script_id, func, line, offset, active_index=-1}`
is created and indexed into both maps; the first element also populates
`first_breakpoint_{line,offset}`." -/
def ParsedFunction.ofFrame (byteCodeCP : Nat) (frame : ParserStackFrame) : ParsedFunction :=
  let pairs := frame.lines.zip frame.offsets
  let mkBp : Nat × Nat → Breakpoint := fun p =>
    { scriptId := frame.scriptId, funcByteCodeCP := byteCodeCP, line := p.1, offset := p.2,
      activeIndex := -1 }
  { byteCodeCP := byteCodeCP
    scriptId := frame.scriptId
    isFunc := frame.isFunc
    line := frame.line
    column := frame.column
    name := frame.name
    sourceLines := []
    sourceName := frame.sourceName
    lines := pairs.foldl (fun m p => insertAssoc m p.1 (mkBp p)) []
    offsets := pairs.foldl (fun m p => insertAssoc m p.2 (mkBp p)) []
    firstBreakpointLine := pairs.head?.map Prod.fst
    firstBreakpointOffset := pairs.head?.map Prod.snd }

/-- The result shape of `getBreakpoint`: `JerryMessageBreakpointHit`.
`breakpoint = none` models the JavaScript `undefined` that
`func.offsets[-1]` produces when no stored offset is at or below the hit. -/
structure BreakpointHit where
  breakpoint : Option Breakpoint
  exact : Bool
deriving DecidableEq, Repr

/-- The `nearestOffset` accumulation loop of `getBreakpoint`
(`for (const currentOffset in func.offsets) if (current <= offset && current >
nearestOffset) nearestOffset = current`), started at accumulator `acc`
(the code starts it at `-1`). -/
def nearestFrom (m : List (Nat × Breakpoint)) (offset : Nat) (acc : Int) : Int :=
  m.foldl (fun a p => if (p.1 : Int) ≤ (offset : Int) ∧ a < (p.1 : Int) then (p.1 : Int) else a)
    acc

/-- The JavaScript comparison `offset < func.firstBreakpointOffset`:
comparison with `undefined` is false. -/
def jsLtOpt (offset : Nat) (o : Option Nat) : Bool :=
  match o with
  | some f => decide (offset < f)
  | none => false

/-- `JerryDebugProtocolHandler.getBreakpoint` (src lines 465–495), over the
offsets map of the function found for the reported compressed pointer. -/
def getBreakpoint (func : ParsedFunction) (offset : Nat) : BreakpointHit :=
  match lookupAssoc func.offsets offset with
  | some bp => { breakpoint := some bp, exact := true }
  | none =>
    if jsLtOpt offset func.firstBreakpointOffset then
      { breakpoint := func.firstBreakpointOffset.bind (fun f => lookupAssoc func.offsets f),
        exact := true }
    else
      let nearest := nearestFrom func.offsets offset (-1)
      { breakpoint := if nearest < 0 then none else lookupAssoc func.offsets nearest.toNat,
        exact := false }

/-! ### Association-list and nearest-offset lemmas -/

theorem lookupAssoc_of_mem {α : Type} {m : List (Nat × α)} {k : Nat} {v : α}
    (hnd : (m.map Prod.fst).Nodup) (h : (k, v) ∈ m) :
    lookupAssoc m k = some v := by
  induction m with
  | nil => cases h
  | cons p tl ih =>
    rw [List.map_cons, List.nodup_cons] at hnd
    rcases List.mem_cons.mp h with rfl | htl
    · simp [lookupAssoc]
    · have hk : k ∈ tl.map Prod.fst := List.mem_map.mpr ⟨(k, v), htl, rfl⟩
      have hne : (p.1 == k) = false := by
        rw [beq_eq_false_iff_ne]
        intro he
        exact hnd.1 (he ▸ hk)
      have hfind : lookupAssoc (p :: tl) k = lookupAssoc tl k := by
        simp [lookupAssoc, List.find?_cons, hne]
      rw [hfind]
      exact ih hnd.2 htl

theorem lookupAssoc_eq_none {α : Type} {m : List (Nat × α)} {k : Nat}
    (h : ∀ v, (k, v) ∉ m) : lookupAssoc m k = none := by
  induction m with
  | nil => rfl
  | cons p tl ih =>
    have hne : (p.1 == k) = false := by
      rw [beq_eq_false_iff_ne]
      intro he
      have hmem : (k, p.2) ∈ p :: tl := by
        have hp : p = (k, p.2) := by
          rcases p with ⟨a, b⟩
          simp only at he
          rw [he]
        rw [← hp]
        exact List.mem_cons_self p tl
      exact h p.2 hmem
    have hfind : lookupAssoc (p :: tl) k = lookupAssoc tl k := by
      simp [lookupAssoc, List.find?_cons, hne]
    rw [hfind]
    exact ih (fun v hv => h v (List.mem_cons_of_mem p hv))

theorem nearestFrom_spec (offset : Nat) (m : List (Nat × Breakpoint)) : ∀ acc : Int,
    (nearestFrom m offset acc = acc ∨
      ∃ p ∈ m, nearestFrom m offset acc = (p.1 : Int) ∧ p.1 ≤ offset) ∧
    acc ≤ nearestFrom m offset acc ∧
    ∀ p ∈ m, (p.1 : Int) ≤ (offset : Int) → (p.1 : Int) ≤ nearestFrom m offset acc := by
  induction m with
  | nil =>
    intro acc
    refine ⟨Or.inl rfl, le_refl _, ?_⟩
    intro p hp
    cases hp
  | cons q tl ih =>
    intro acc
    have hstep : nearestFrom (q :: tl) offset acc =
        nearestFrom tl offset
          (if (q.1 : Int) ≤ (offset : Int) ∧ acc < (q.1 : Int) then (q.1 : Int) else acc) :=
      rfl
    by_cases hc : (q.1 : Int) ≤ (offset : Int) ∧ acc < (q.1 : Int)
    · rw [hstep, if_pos hc]
      rcases ih (q.1 : Int) with ⟨hval, hmono, hmax⟩
      refine ⟨?_, ?_, ?_⟩
      · rcases hval with heq | ⟨p, hp, hpe, hple⟩
        · exact Or.inr ⟨q, List.mem_cons_self q tl, heq, by exact_mod_cast hc.1⟩
        · exact Or.inr ⟨p, List.mem_cons_of_mem q hp, hpe, hple⟩
      · exact le_trans (le_of_lt hc.2) hmono
      · intro p hp hple
        rcases List.mem_cons.mp hp with rfl | hptl
        · exact hmono
        · exact hmax p hptl hple
    · rw [hstep, if_neg hc]
      rcases ih acc with ⟨hval, hmono, hmax⟩
      refine ⟨?_, hmono, ?_⟩
      · rcases hval with heq | ⟨p, hp, hpe, hple⟩
        · exact Or.inl heq
        · exact Or.inr ⟨p, List.mem_cons_of_mem q hp, hpe, hple⟩
      · intro p hp hple
        rcases List.mem_cons.mp hp with rfl | hptl
        · have : ¬acc < (p.1 : Int) := fun hlt => hc ⟨hple, hlt⟩
          exact le_trans (not_lt.mp this) hmono
        · exact hmax p hptl hple

/-! ## Format-string codec (modelled from the spec §4.1 and the
`JerryUtils` tests; `decodeMessage` / `encodeMessage` are in the missing
`JerryUtils.ts`) -/

/-- Modelled from the spec: `getFormatSize`; `none` models the exception on
an unknown format character. -/
def getFormatSize (config : ByteConfig) (format : List Char) : Option Nat :=
  format.foldl
    (fun acc c => acc.bind (fun n =>
      if c = 'B' then some (n + 1)
      else if c = 'C' then some (n + config.cpointerSize)
      else if c = 'I' then some (n + 4)
      else none))
    (some 0)

/-- Reads one value of the format character at `off`; returns the value and
the next offset. -/
def readValue (config : ByteConfig) (c : Char) (msg : List Nat) (off : Nat) :
    Except String (Nat × Nat) :=
  if c = 'B' then .ok (msg.getD off 0, off + 1)
  else if c = 'C' ∨ c = 'I' then
    let size := if c = 'C' then config.cpointerSize else 4
    if size = 2 then
      .ok ((if config.littleEndian then msg.getD off 0 + msg.getD (off + 1) 0 * 256
            else msg.getD off 0 * 256 + msg.getD (off + 1) 0), off + 2)
    else if size = 4 then .ok (getUint32 config.littleEndian msg off, off + 4)
    else .error "unexpected pointer size"
  else .error "unexpected format character"

def decodeLoop (config : ByteConfig) : List Char → List Nat → Nat → Except String (List Nat)
  | [], _, _ => .ok []
  | c :: rest, msg, off =>
    match readValue config c msg off with
    | .error e => .error e
    | .ok (v, off') =>
      match decodeLoop config rest msg off' with
      | .error e => .error e
      | .ok vs => .ok (v :: vs)

/-- Modelled from the spec: `decodeMessage (config, format, message, offset)`
of the missing `JerryUtils.ts`: fails on a short buffer, an unknown format
character or a pointer size other than 2 or 4 (pinned by its tests). -/
def decodeMessage (config : ByteConfig) (format : List Char) (msg : List Nat)
    (offset : Nat) : Except String (List Nat) :=
  match getFormatSize config format with
  | none => .error "unexpected format character"
  | some size =>
    if msg.length < offset + size then .error "received message too short"
    else decodeLoop config format msg offset

/-- Encodes one value of the format character. -/
def encodeValue (config : ByteConfig) (c : Char) (v : Nat) : Except String (List Nat) :=
  if c = 'B' then
    if v < 256 then .ok [v] else .error "value out of range"
  else if c = 'C' ∨ c = 'I' then
    let size := if c = 'C' then config.cpointerSize else 4
    if size = 2 then
      if v < 65536 then
        .ok (if config.littleEndian then [v % 256, v / 256] else [v / 256, v % 256])
      else .error "value out of range"
    else if size = 4 then
      if v < 4294967296 then .ok (uint32Bytes config.littleEndian v)
      else .error "value out of range"
    else .error "unexpected pointer size"
  else .error "unexpected format character"

/-- Modelled from the spec: `encodeMessage (config, format, values)` of the
missing `JerryUtils.ts`: fails when the value list is too short, a value is
out of range, or the format has an unknown character or pointer size. -/
def encodeMessage (config : ByteConfig) : List Char → List Nat → Except String (List Nat)
  | [], _ => .ok []
  | _ :: _, [] => .error "provided values do not match format"
  | c :: rest, v :: vs =>
    match encodeValue config c v with
    | .error e => .error e
    | .ok bs =>
      match encodeMessage config rest vs with
      | .error e => .error e
      | .ok bsRest => .ok (bs ++ bsRest)

/-! ## Protocol handler state (`JerryDebugProtocolHandler`, src lines 121–207) -/

/-- `ParsedSource` of `JerryProtocolHandler.ts` (both fields optional). -/
structure ParsedSource where
  name : Option (List Nat)
  source : Option (List Nat)
deriving DecidableEq, Repr

/-- The optional delegate callbacks (`JerryDebugProtocolDelegate`): only the
presence of each callback matters; invocations surface as events. -/
structure Delegate where
  hasOnBacktrace : Bool
  hasOnBreakpointHit : Bool
  hasOnExceptionHit : Bool
  hasOnEvalResult : Bool
  hasOnError : Bool
  hasOnResume : Bool
  hasOnScriptParsed : Bool
  hasOnWaitForSource : Bool
deriving DecidableEq, Repr

/-- Observable effects of the handler: delegate callbacks, transport sends
(`debuggerClient.send`), and request resolutions/rejections. -/
inductive Event where
  | errorEv (code : Nat) (message : String)
  | scriptParsedEv (id : Nat) (name : List Nat) (lineCount : Nat)
  | breakpointHitEv (breakpoint : Breakpoint) (exact : Bool) (stopType : String)
  | exceptionHitEv (breakpoint : Breakpoint) (exact : Bool) (message : Option (List Nat))
  | evalResultEv (subtype : Nat) (value : List Nat)
  | backtraceEv (frames : List (Option Breakpoint))
  | resumeEv
  | waitForSourceEv
  | sendEv (data : List Nat)
  | resolveEv (data : List Nat)
  | rejectEv (data : List Nat) (message : String)
deriving DecidableEq, Repr

/-- The mutable fields of `JerryDebugProtocolHandler`.  The parser stack is
a JavaScript array with the top at the end; here the top is the head.
Pending requests are identified by their byte buffers.  `evalsPending` is an
`Int` because `this.evalsPending--` can drive it below zero; the guards
`if (this.evalsPending)` test JavaScript truthiness, i.e. `≠ 0`. -/
structure HandlerState where
  maxMessageSize : Nat
  byteConfig : ByteConfig
  version : Nat
  stack : List ParserStackFrame
  sources : List (Option ParsedSource)
  lineLists : List (List (Nat × List Nat))
  source : List Nat
  sourceData : Option (List Nat)
  sourceName : Option (List Nat)
  sourceNameData : Option (List Nat)
  functionName : Option (List Nat)
  functionNameData : Option (List Nat)
  evalResultData : Option (List Nat)
  functions : List (Nat × ParsedFunction)
  newFunctions : List (Nat × ParsedFunction)
  backtrace : List (Option Breakpoint)
  nextScriptID : Nat
  exceptionData : Option (List Nat)
  exceptionString : Option (List Nat)
  evalsPending : Int
  lastBreakpointHit : Option Breakpoint
  lastBreakpointExact : Bool
  activeBreakpoints : List (Nat × Breakpoint)
  nextBreakpointIndex : Nat
  waitForSourceEnabled : Bool
  requestQueue : List (List Nat)
  currentRequest : Option (List Nat)
  lastStopType : Option Nat
deriving DecidableEq, Repr

/-- The constructor's initial state (src lines 126–207): `sources` and
`lineLists` start with a dummy entry because scripts are 1-indexed. -/
def initialState : HandlerState :=
  { maxMessageSize := 0
    byteConfig := { cpointerSize := 0, littleEndian := true }
    version := 0
    stack := []
    sources := [some { name := none, source := none }]
    lineLists := [[]]
    source := []
    sourceData := none
    sourceName := none
    sourceNameData := none
    functionName := none
    functionNameData := none
    evalResultData := none
    functions := []
    newFunctions := []
    backtrace := []
    nextScriptID := 1
    exceptionData := none
    exceptionString := none
    evalsPending := 0
    lastBreakpointHit := none
    lastBreakpointExact := true
    activeBreakpoints := []
    nextBreakpointIndex := 0
    waitForSourceEnabled := false
    requestQueue := []
    currentRequest := none
    lastStopType := none }

/-- Result of one inbound-frame handler: next state, emitted events, the
JavaScript truthiness of the handler's return value (only `onBacktrace` and
`onEvalResult` return objects — both always truthy, an empty array included),
and a propagated exception when the handler throws. -/
structure StepOut where
  state : HandlerState
  events : List Event
  truthy : Bool
  thrown : Option String
deriving DecidableEq, Repr

/-- `abort(message)` (src lines 732–737): calls `onError(0, message)` only
when the delegate provides it. -/
def abortEvents (d : Delegate) (message : String) : List Event :=
  if d.hasOnError then [Event.errorEv 0 message] else []

/-- Sparse-array assignment `l[i] = v` on a JavaScript array: assigning past
the end extends the array with holes. -/
def setSparse {α : Type} (l : List (Option α)) (i : Nat) (v : α) : List (Option α) :=
  if i < l.length then l.set i (some v)
  else l ++ List.replicate (i - l.length) none ++ [some v]

/-- `source.split(/\n/).length`. -/
def lineCountOf (s : List Nat) : Nat :=
  (s.splitOn 10).length

/-- `source.split(/\n/)`. -/
def splitLines (s : List Nat) : List (List Nat) :=
  s.splitOn 10

/-- `if (i in lineList) lineList[i].push(func) else lineList[i] = [func]`
with functions identified by compressed pointer. -/
def appendLineCell (ll : List (Nat × List Nat)) (line : Nat) (cp : Nat) :
    List (Nat × List Nat) :=
  if ll.any (fun p => p.1 == line) then
    ll.map (fun p => if p.1 == line then (p.1, p.2 ++ [cp]) else p)
  else ll ++ [(line, [cp])]

/-- `array.splice(array.indexOf(func), 1)`: removes the first occurrence;
when absent, `indexOf` is `-1` and `splice(-1, 1)` removes the last
element. -/
def spliceRemove (cell : List Nat) (cp : Nat) : List Nat :=
  match cell.findIdx? (fun x => x == cp) with
  | some i => cell.eraseIdx i
  | none => cell.dropLast

/-- Outcome of an outgoing command (`Promise` behavior): immediately
resolved (fire-and-forget accepted), pending on the queue, or rejected. -/
inductive CmdResult where
  | resolved
  | pending
  | rejected (message : String)
deriving DecidableEq, Repr

/-- `sendSimpleRequest` (src lines 814–822): submits outside the tracked
queue; `currentRequest` is untouched; a failed `send` rejects. -/
def sendSimpleRequest (sendOk : List Nat → Bool) (st : HandlerState) (data : List Nat) :
    CmdResult × HandlerState × List Event :=
  if sendOk data then (.resolved, st, [Event.sendEv data])
  else (.rejected "Failed to submit request.", st, [Event.sendEv data])

/-- `sendRequest` (src lines 800–812): queues behind an in-flight tracked
request, otherwise submits and becomes the in-flight request on success. -/
def sendRequest (sendOk : List Nat → Bool) (st : HandlerState) (data : List Nat) :
    CmdResult × HandlerState × List Event :=
  if st.currentRequest.isSome then
    (.pending, { st with requestQueue := st.requestQueue ++ [data] }, [])
  else
    if sendOk data then
      (.pending, { st with currentRequest := some data }, [Event.sendEv data])
    else
      (.rejected "Failed to submit request.", st, [Event.sendEv data])

/-! ## Inbound-frame handlers (src lines 267–628) -/

/-- `onConfiguration` (src lines 267–286): a short frame aborts and returns;
otherwise the four fields are assigned unconditionally and an invalid
pointer size or version mismatch aborts (without undoing the assignment). -/
def onConfiguration (d : Delegate) (st : HandlerState) (data : List Nat) : StepOut :=
  if data.length < 5 then
    { state := st, events := abortEvents d "configuration message wrong size",
      truthy := false, thrown := none }
  else
    let st1 := { st with
      maxMessageSize := data.getD 1 0
      byteConfig := { cpointerSize := data.getD 2 0, littleEndian := data.getD 3 0 != 0 }
      version := data.getD 4 0 }
    let evs1 :=
      if st1.byteConfig.cpointerSize ≠ 2 ∧ st1.byteConfig.cpointerSize ≠ 4 then
        abortEvents d "compressed pointer must be 2 or 4 bytes long"
      else []
    let evs2 :=
      if st1.version ≠ JERRY_DEBUGGER_VERSION then
        abortEvents d "incorrect target debugger version detected"
      else []
    { state := st1, events := evs1 ++ evs2, truthy := false, thrown := none }

/-- `onByteCodeCP` (src lines 288–331): ignored while evals are pending;
pops the parser stack (throwing when empty), builds the `ParsedFunction`,
and on an empty stack promotes all staged functions into the function table,
appends the line list and advances `nextScriptID`.  The promotion loops
iterate in insertion order (the JavaScript object iterates numeric keys in
ascending order; no claim depends on the order). -/
def onByteCodeCP (_d : Delegate) (st : HandlerState) (data : List Nat) : StepOut :=
  if st.evalsPending ≠ 0 then
    { state := st, events := [], truthy := false, thrown := none }
  else
    match st.stack with
    | [] =>
      { state := st, events := [], truthy := false, thrown := some "missing parser stack frame" }
    | frame :: stackRest =>
      match decodeMessage st.byteConfig ['C'] data 1 with
      | .error e =>
        { state := { st with stack := stackRest }, events := [], truthy := false,
          thrown := some e }
      | .ok vals =>
        let byteCodeCP := vals.getD 0 0
        let func := ParsedFunction.ofFrame byteCodeCP frame
        let st1 := { st with stack := stackRest,
                             newFunctions := insertAssoc st.newFunctions byteCodeCP func }
        if stackRest ≠ [] then
          { state := st1, events := [], truthy := false, thrown := none }
        else
          let func1 := { func with sourceLines := splitLines st1.source,
                                   sourceName := st1.sourceName }
          let nf := insertAssoc st1.newFunctions byteCodeCP func1
          let functionsAll := nf.foldl (fun acc p => insertAssoc acc p.1 p.2) st1.functions
          let lineList := nf.foldl
            (fun ll p => p.2.lines.foldl (fun ll2 lb => appendLineCell ll2 lb.1 p.1) ll) []
          { state := { st1 with
              source := []
              sourceName := none
              functions := functionsAll
              lineLists := st1.lineLists ++ [lineList]
              nextScriptID := st1.nextScriptID + 1
              newFunctions := [] }
            events := [], truthy := false, thrown := none }

/-- `onParseFunction` (src lines 333–349). -/
def onParseFunction (_d : Delegate) (st : HandlerState) (data : List Nat) : StepOut :=
  match decodeMessage st.byteConfig ['I', 'I'] data 1 with
  | .error e => { state := st, events := [], truthy := false, thrown := some e }
  | .ok pos =>
    { state := { st with
        stack := { isFunc := true
                   scriptId := st.nextScriptID
                   line := pos.getD 0 0
                   column := pos.getD 1 0
                   name := st.functionName.getD []
                   source := st.source
                   sourceName := st.sourceName
                   lines := []
                   offsets := [] } :: st.stack
        functionName := none }
      events := [], truthy := false, thrown := none }

/-- `onBreakpointList` (src lines 351–372): ignored while evals are pending;
a length not of the form `1 + 4k` with `k ≥ 1` throws; appends the decoded
u32 entries to the top frame's `lines` or `offsets`. -/
def onBreakpointList (_d : Delegate) (st : HandlerState) (data : List Nat) : StepOut :=
  if st.evalsPending ≠ 0 then
    { state := st, events := [], truthy := false, thrown := none }
  else if data.length % 4 ≠ 1 ∨ data.length < 5 then
    { state := st, events := [], truthy := false,
      thrown := some "unexpected breakpoint list message length" }
  else
    match st.stack with
    | [] =>
      { state := st, events := [], truthy := false,
        thrown := some "TypeError: stackFrame is undefined" }
    | frame :: stackRest =>
      let count := (data.length - 1) / 4
      let vals := (List.range count).map
        (fun k => getUint32 st.byteConfig.littleEndian data (1 + 4 * k))
      let frame1 :=
        if data.getD 0 0 = SERVER.JERRY_DEBUGGER_BREAKPOINT_LIST then
          { frame with lines := frame.lines ++ vals }
        else
          { frame with offsets := frame.offsets ++ vals }
      { state := { st with stack := frame1 :: stackRest }, events := [], truthy := false,
        thrown := none }

/-- `onSourceCode` (src lines 374–409): ignored while evals are pending;
synthesizes a top-level frame on an empty stack, accumulates the bytes, and
on the END tag decodes the script, stores it and reports `onScriptParsed`. -/
def onSourceCode (d : Delegate) (st : HandlerState) (data : List Nat) : StepOut :=
  if st.evalsPending ≠ 0 then
    { state := st, events := [], truthy := false, thrown := none }
  else
    let st1 :=
      if st.stack.isEmpty then
        { st with stack := [{ isFunc := false
                              scriptId := st.nextScriptID
                              line := 1
                              column := 1
                              name := []
                              source := []
                              sourceName := none
                              lines := []
                              offsets := [] }] }
      else st
    let st2 := { st1 with sourceData := some (assembleUint8Arrays st1.sourceData data) }
    if data.getD 0 0 = SERVER.JERRY_DEBUGGER_SOURCE_CODE_END then
      let src := cesu8ToString (st2.sourceData.getD [])
      let st3 := { st2 with
        source := src
        sources := setSparse st2.sources st2.nextScriptID
          { name := st2.sourceName, source := some src }
        sourceData := none }
      { state := st3
        events :=
          if d.hasOnScriptParsed then
            [Event.scriptParsedEv st3.nextScriptID (st3.sourceName.getD []) (lineCountOf src)]
          else []
        truthy := false, thrown := none }
    else
      { state := st2, events := [], truthy := false, thrown := none }

/-- `onSourceCodeName` (src lines 411–420); note there is no
`evalsPending` guard here. -/
def onSourceCodeName (_d : Delegate) (st : HandlerState) (data : List Nat) : StepOut :=
  let st1 := { st with sourceNameData := some (assembleUint8Arrays st.sourceNameData data) }
  if data.getD 0 0 = SERVER.JERRY_DEBUGGER_SOURCE_CODE_NAME_END then
    { state := { st1 with sourceName := some (cesu8ToString (st1.sourceNameData.getD []))
                          sourceNameData := none }
      events := [], truthy := false, thrown := none }
  else
    { state := st1, events := [], truthy := false, thrown := none }

/-- `onFunctionName` (src lines 422–429). -/
def onFunctionName (_d : Delegate) (st : HandlerState) (data : List Nat) : StepOut :=
  let st1 := { st with functionNameData := some (assembleUint8Arrays st.functionNameData data) }
  if data.getD 0 0 = SERVER.JERRY_DEBUGGER_FUNCTION_NAME_END then
    { state := { st1 with functionName := some (cesu8ToString (st1.functionNameData.getD []))
                          functionNameData := none }
      events := [], truthy := false, thrown := none }
  else
    { state := st1, events := [], truthy := false, thrown := none }

/-- The per-line loop of `releaseFunction`: splices the function out of each
line-list cell and clears the active slot of each breakpoint whose
`activeIndex` is non-negative. -/
def releaseLinesLoop (cp : Nat) :
    List (Nat × Breakpoint) → List (Nat × List Nat) → List (Nat × Breakpoint) →
      Except String (List (Nat × List Nat) × List (Nat × Breakpoint))
  | [], lineList, actives => .ok (lineList, actives)
  | lb :: rest, lineList, actives =>
    match lookupAssoc lineList lb.1 with
    | none => .error "TypeError: array is undefined"
    | some cell =>
      let lineList1 := insertAssoc lineList lb.1 (spliceRemove cell cp)
      let actives1 :=
        if lb.2.activeIndex ≥ 0 then removeAssoc actives lb.2.activeIndex.toNat else actives
      releaseLinesLoop cp rest lineList1 actives1

/-- `releaseFunction` (src lines 431–447).  A missing function or line list
throws (`.error`); partial mutations before such an exception are not
modelled (no claim reaches that path). -/
def releaseFunction (st : HandlerState) (byteCodeCP : Nat) : Except String HandlerState :=
  match lookupAssoc st.functions byteCodeCP with
  | none => .error "TypeError: func is undefined"
  | some func =>
    match func.lines with
    | [] => .ok { st with functions := removeAssoc st.functions byteCodeCP }
    | lbs =>
      if func.scriptId < st.lineLists.length then
        match releaseLinesLoop byteCodeCP lbs (st.lineLists.getD func.scriptId [])
            st.activeBreakpoints with
        | .error e => .error e
        | .ok (lineList1, actives1) =>
          .ok { st with
            lineLists := st.lineLists.set func.scriptId lineList1
            activeBreakpoints := actives1
            functions := removeAssoc st.functions byteCodeCP }
      else .error "TypeError: lineList is undefined"

/-- `onReleaseByteCodeCP` (src lines 449–463): while evals are pending the
release itself is skipped, but the tag is still patched to
`FREE_BYTE_CODE_CP` and the frame echoed back through a simple request. -/
def onReleaseByteCodeCP (_d : Delegate) (sendOk : List Nat → Bool) (st : HandlerState)
    (data : List Nat) : StepOut :=
  let afterRelease : Except String HandlerState :=
    if st.evalsPending ≠ 0 then .ok st
    else
      match decodeMessage st.byteConfig ['C'] data 1 with
      | .error e => .error e
      | .ok vals =>
        let byteCodeCP := vals.getD 0 0
        if (lookupAssoc st.newFunctions byteCodeCP).isSome then
          .ok { st with newFunctions := removeAssoc st.newFunctions byteCodeCP }
        else releaseFunction st byteCodeCP
  match afterRelease with
  | .error e => { state := st, events := [], truthy := false, thrown := some e }
  | .ok st1 =>
    let out := data.set 0 CLIENT.JERRY_DEBUGGER_FREE_BYTE_CODE_CP
    let sent := sendSimpleRequest sendOk st1 out
    { state := sent.2.1, events := sent.2.2, truthy := false, thrown := none }

/-- The stop-type map (src lines 199–205) as a lookup function. -/
def stopTypeText (t : Nat) : Option String :=
  if t = CLIENT.JERRY_DEBUGGER_NEXT then some "step"
  else if t = CLIENT.JERRY_DEBUGGER_STEP then some "step-in"
  else if t = CLIENT.JERRY_DEBUGGER_FINISH then some "step-out"
  else if t = CLIENT.JERRY_DEBUGGER_CONTINUE then some "continue"
  else if t = CLIENT.JERRY_DEBUGGER_STOP then some "pause"
  else none

/-- `onBreakpointHit` (src lines 497–542), shared by `BREAKPOINT_HIT` and
`EXCEPTION_HIT`.  On an exception frame with an `onExceptionHit` delegate the
function returns early: `exceptionString` is cleared but `lastStopType` is
NOT reset (the trailing `this.lastStopType = null` is skipped). -/
def onBreakpointHit (d : Delegate) (st : HandlerState) (data : List Nat) : StepOut :=
  match decodeMessage st.byteConfig ['C', 'I'] data 1 with
  | .error e => { state := st, events := [], truthy := false, thrown := some e }
  | .ok vals =>
    match lookupAssoc st.functions (vals.getD 0 0) with
    | none =>
      { state := st, events := [], truthy := false, thrown := some "TypeError: func is undefined" }
    | some func =>
      let hit := getBreakpoint func (vals.getD 1 0)
      match hit.breakpoint with
      | none =>
        { state := { st with lastBreakpointHit := none, lastBreakpointExact := hit.exact }
          events := [], truthy := false, thrown := some "TypeError: breakpoint is undefined" }
      | some bp =>
        let st1 := { st with lastBreakpointHit := some bp, lastBreakpointExact := hit.exact }
        if data.getD 0 0 = SERVER.JERRY_DEBUGGER_EXCEPTION_HIT ∧ d.hasOnExceptionHit then
          { state := { st1 with exceptionString := none }
            events := [Event.exceptionHitEv bp hit.exact st1.exceptionString]
            truthy := false, thrown := none }
        else
          let evs :=
            if d.hasOnBreakpointHit then
              let stopTypePart := (st1.lastStopType.bind stopTypeText).getD "entry"
              let stopType := (if bp.activeIndex = -1 then "inactive " else "") ++
                "breakpoint (" ++ stopTypePart ++ ")"
              [Event.breakpointHitEv bp hit.exact stopType]
            else []
          { state := { st1 with lastStopType := none }, events := evs, truthy := false,
            thrown := none }

/-- The frame-decoding loop of `onBacktrace`; the accumulated pushes before
an exception persist, mirroring the in-place `this.backtrace.push`. -/
def onBacktraceLoop (config : ByteConfig) (functions : List (Nat × ParsedFunction))
    (data : List Nat) :
    Nat → Nat → List (Option Breakpoint) → List (Option Breakpoint) × Option String
  | 0, _, acc => (acc, none)
  | k + 1, i, acc =>
    match decodeMessage config ['C', 'I'] data i with
    | .error e => (acc, some e)
    | .ok vals =>
      match lookupAssoc functions (vals.getD 0 0) with
      | none => (acc, some "TypeError: func is undefined")
      | some func =>
        onBacktraceLoop config functions data k (i + (config.cpointerSize + 4))
          (acc ++ [(getBreakpoint func (vals.getD 1 0)).breakpoint])

/-- `onBacktrace` (src lines 544–563): decodes `(cp, offset)` frames in
steps of `cpointerSize + 4`; on the END tag reports and clears the
accumulator.  The return value is an array in both branches, so the result
is always truthy. -/
def onBacktrace (d : Delegate) (st : HandlerState) (data : List Nat) : StepOut :=
  let s := st.byteConfig.cpointerSize + 4
  let count := if data.length ≤ 1 then 0 else (data.length - 2) / s + 1
  match onBacktraceLoop st.byteConfig st.functions data count 1 st.backtrace with
  | (bt, some e) =>
    { state := { st with backtrace := bt }, events := [], truthy := false, thrown := some e }
  | (bt, none) =>
    if data.getD 0 0 = SERVER.JERRY_DEBUGGER_BACKTRACE_END then
      { state := { st with backtrace := [] }
        events := if d.hasOnBacktrace then [Event.backtraceEv bt] else []
        truthy := true, thrown := none }
    else
      { state := { st with backtrace := bt }, events := [], truthy := true, thrown := none }

/-- `onEvalResult` (src lines 565–590): accumulates; on the END tag the last
byte of the END frame is the subtype, the rest decodes as CESU-8, and
`evalsPending` is decremented (unconditionally, possibly below zero).  The
returned object is always truthy. -/
def onEvalResult (d : Delegate) (st : HandlerState) (data : List Nat) : StepOut :=
  let st1 := { st with evalResultData := some (assembleUint8Arrays st.evalResultData data) }
  if data.getD 0 0 = SERVER.JERRY_DEBUGGER_EVAL_RESULT_END then
    let subType := data.getD (data.length - 1) 0
    let evalResult := cesu8ToString ((st1.evalResultData.getD []).dropLast)
    { state := { st1 with evalResultData := none, evalsPending := st1.evalsPending - 1 }
      events := if d.hasOnEvalResult then [Event.evalResultEv subType evalResult] else []
      truthy := true, thrown := none }
  else
    { state := st1, events := [], truthy := true, thrown := none }

/-- `onExceptionStr` (src lines 830–837). -/
def onExceptionStr (_d : Delegate) (st : HandlerState) (data : List Nat) : StepOut :=
  let st1 := { st with exceptionData := some (assembleUint8Arrays st.exceptionData data) }
  if data.getD 0 0 = SERVER.JERRY_DEBUGGER_EXCEPTION_STR_END then
    { state := { st1 with exceptionString := some (cesu8ToString (st1.exceptionData.getD []))
                          exceptionData := none }
      events := [], truthy := false, thrown := none }
  else
    { state := st1, events := [], truthy := false, thrown := none }

/-- `onWaitForSource` (src lines 793–798). -/
def onWaitForSource (d : Delegate) (st : HandlerState) (_data : List Nat) : StepOut :=
  { state := { st with waitForSourceEnabled := true }
    events := if d.hasOnWaitForSource then [Event.waitForSourceEv] else []
    truthy := false, thrown := none }

/-- The `functionMap` dispatch (src lines 172–194): `none` models an
unhandled message type. -/
def runHandler (d : Delegate) (sendOk : List Nat → Bool) (tag : Nat) (st : HandlerState)
    (data : List Nat) : Option StepOut :=
  if tag = SERVER.JERRY_DEBUGGER_CONFIGURATION then some (onConfiguration d st data)
  else if tag = SERVER.JERRY_DEBUGGER_BYTE_CODE_CP then some (onByteCodeCP d st data)
  else if tag = SERVER.JERRY_DEBUGGER_PARSE_FUNCTION then some (onParseFunction d st data)
  else if tag = SERVER.JERRY_DEBUGGER_BREAKPOINT_LIST ∨
      tag = SERVER.JERRY_DEBUGGER_BREAKPOINT_OFFSET_LIST then
    some (onBreakpointList d st data)
  else if tag = SERVER.JERRY_DEBUGGER_SOURCE_CODE ∨
      tag = SERVER.JERRY_DEBUGGER_SOURCE_CODE_END then
    some (onSourceCode d st data)
  else if tag = SERVER.JERRY_DEBUGGER_SOURCE_CODE_NAME ∨
      tag = SERVER.JERRY_DEBUGGER_SOURCE_CODE_NAME_END then
    some (onSourceCodeName d st data)
  else if tag = SERVER.JERRY_DEBUGGER_FUNCTION_NAME ∨
      tag = SERVER.JERRY_DEBUGGER_FUNCTION_NAME_END then
    some (onFunctionName d st data)
  else if tag = SERVER.JERRY_DEBUGGER_RELEASE_BYTE_CODE_CP then
    some (onReleaseByteCodeCP d sendOk st data)
  else if tag = SERVER.JERRY_DEBUGGER_BREAKPOINT_HIT ∨
      tag = SERVER.JERRY_DEBUGGER_EXCEPTION_HIT then
    some (onBreakpointHit d st data)
  else if tag = SERVER.JERRY_DEBUGGER_EXCEPTION_STR ∨
      tag = SERVER.JERRY_DEBUGGER_EXCEPTION_STR_END then
    some (onExceptionStr d st data)
  else if tag = SERVER.JERRY_DEBUGGER_BACKTRACE ∨
      tag = SERVER.JERRY_DEBUGGER_BACKTRACE_END then
    some (onBacktrace d st data)
  else if tag = SERVER.JERRY_DEBUGGER_EVAL_RESULT ∨
      tag = SERVER.JERRY_DEBUGGER_EVAL_RESULT_END then
    some (onEvalResult d st data)
  else if tag = SERVER.JERRY_DEBUGGER_WAIT_FOR_SOURCE then
    some (onWaitForSource d st data)
  else none

/-- Result of `onMessage`: next state, events, and a propagated handler
exception. -/
structure MessageOut where
  state : HandlerState
  events : List Event
  thrown : Option String
deriving DecidableEq, Repr

/-- `onMessage` (src lines 592–628): length and first-frame guards, dispatch
through `functionMap`, and — when a truthy handler result meets a pending
tracked request — resolution of that request followed by submission of the
queue head (a failed submission rejects exactly that request and leaves
`currentRequest` pointing at the already-resolved request, as in the
source). -/
def onMessage (d : Delegate) (sendOk : List Nat → Bool) (st : HandlerState)
    (message : List Nat) : MessageOut :=
  if message.length < 1 then
    { state := st, events := abortEvents d "message too short", thrown := none }
  else if st.byteConfig.cpointerSize = 0 ∧
      message.getD 0 0 ≠ SERVER.JERRY_DEBUGGER_CONFIGURATION then
    { state := st, events := abortEvents d "the first message must be configuration",
      thrown := none }
  else
    let request := st.currentRequest
    match runHandler d sendOk (message.getD 0 0) st message with
    | some out =>
      match out.thrown with
      | some e => { state := out.state, events := out.events, thrown := some e }
      | none =>
        match request, out.truthy with
        | some reqData, true =>
          let st1 := out.state
          match st1.requestQueue with
          | [] =>
            { state := { st1 with currentRequest := none }
              events := out.events ++ [Event.resolveEv reqData], thrown := none }
          | next :: queueRest =>
            if sendOk next then
              { state := { st1 with requestQueue := queueRest, currentRequest := some next }
                events := out.events ++ [Event.resolveEv reqData, Event.sendEv next]
                thrown := none }
            else
              { state := { st1 with requestQueue := queueRest }
                events := out.events ++ [Event.resolveEv reqData, Event.sendEv next,
                  Event.rejectEv next "Failed to submit request."]
                thrown := none }
        | _, _ => { state := out.state, events := out.events, thrown := none }
    | none =>
      { state := st
        events :=
          (match request with
            | some reqData => [Event.rejectEv reqData "unhandled protocol message type"]
            | none => []) ++ abortEvents d "unhandled protocol message type"
        thrown := none }

/-- `getSource` (src lines 256–261): `none` models the `TypeError` thrown
when `sources[scriptId]` is a hole of the sparse script table. -/
def getSource (st : HandlerState) (scriptId : Nat) : Option (List Nat) :=
  if scriptId < st.sources.length then
    match st.sources.getD scriptId none with
    | none => none
    | some ps => some (ps.source.getD [])
  else some []

/-! ## Outgoing commands (src lines 215–238, 648–791) -/

/-- `pause` (src lines 227–234): rejected while halted at a breakpoint;
otherwise records the stop type and sends the one-byte STOP command. -/
def pause (sendOk : List Nat → Bool) (st : HandlerState) :
    CmdResult × HandlerState × List Event :=
  if st.lastBreakpointHit.isSome then
    (.rejected "attempted pause while at breakpoint", st, [])
  else
    let st1 := { st with lastStopType := some CLIENT.JERRY_DEBUGGER_STOP }
    match encodeMessage st1.byteConfig ['B'] [CLIENT.JERRY_DEBUGGER_STOP] with
    | .error e => (.rejected e, st1, [])
    | .ok bytes => sendSimpleRequest sendOk st1 bytes

/-- `resumeExec` (src lines 739–753), shared by the resume family: rejected
while not at a breakpoint; otherwise clears the halt, records the stop type,
sends the one-byte command and calls `onResume`. -/
def resumeExec (code : Nat) (d : Delegate) (sendOk : List Nat → Bool) (st : HandlerState) :
    CmdResult × HandlerState × List Event :=
  if st.lastBreakpointHit.isNone then
    (.rejected "attempted resume while not at breakpoint", st, [])
  else
    let st1 := { st with lastBreakpointHit := none, lastStopType := some code }
    match encodeMessage st1.byteConfig ['B'] [code] with
    | .error e => (.rejected e, st1, [])
    | .ok bytes =>
      let sent := sendSimpleRequest sendOk st1 bytes
      (sent.1, sent.2.1, sent.2.2 ++ (if d.hasOnResume then [Event.resumeEv] else []))

/-- `stepOver` (src lines 215–217). -/
def stepOver (d : Delegate) (sendOk : List Nat → Bool) (st : HandlerState) :
    CmdResult × HandlerState × List Event :=
  resumeExec CLIENT.JERRY_DEBUGGER_NEXT d sendOk st

/-- `stepInto` (src lines 219–221). -/
def stepInto (d : Delegate) (sendOk : List Nat → Bool) (st : HandlerState) :
    CmdResult × HandlerState × List Event :=
  resumeExec CLIENT.JERRY_DEBUGGER_STEP d sendOk st

/-- `stepOut` (src lines 223–225). -/
def stepOut (d : Delegate) (sendOk : List Nat → Bool) (st : HandlerState) :
    CmdResult × HandlerState × List Event :=
  resumeExec CLIENT.JERRY_DEBUGGER_FINISH d sendOk st

/-- `resume` (src lines 236–238). -/
def resume (d : Delegate) (sendOk : List Nat → Bool) (st : HandlerState) :
    CmdResult × HandlerState × List Event :=
  resumeExec CLIENT.JERRY_DEBUGGER_CONTINUE d sendOk st

/-- The eval fragmentation loop of `evaluate` (src lines 662–669), with the
number of remaining iterations as fuel: `none` models non-termination of the
JavaScript `while` loop (which never advances when `maxMessageSize ≤ 1`).
`maxMessageSize` is passed once; nothing in the loop body writes it.
Returns the final state, events, the fragments passed to `sendRequest` in
order, and the result of the last submission. -/
def evalSendLoop (sendOk : List Nat → Bool) (max : Nat) :
    Nat → List Nat → Nat → HandlerState →
      Option (HandlerState × List Event × List (List Nat) × Option CmdResult)
  | 0, arr, offset, st =>
    if offset < arr.length - 1 then none else some (st, [], [], none)
  | fuel + 1, arr, offset, st =>
    if offset < arr.length - 1 then
      let clamped := min (arr.length - offset) max
      let frag := (arr.drop offset).take clamped
      let sent := sendRequest sendOk st frag
      let offset' := offset + clamped - 1
      let arr' := arr.set offset' CLIENT.JERRY_DEBUGGER_EVAL_PART
      match evalSendLoop sendOk max fuel arr' offset' sent.2.1 with
      | none => none
      | some (st2, evs2, frags2, res2) =>
        some (st2, sent.2.2 ++ evs2, frag :: frags2,
          some (res2.getD sent.1))
    else some (st, [], [], none)

/-- The CESU-8 eval buffer of `evaluate` (src lines 656–660): 5 reserved
header bytes, byte 0 overwritten with the EVAL tag, bytes 1–4 with the
endianness-dependent payload length (`arrayLength - 1 - 4`). -/
def evalBuffer (config : ByteConfig) (expression : List Nat) : List Nat :=
  let array := stringToCesu8 (EVAL_SUBTYPE_EVAL :: expression) 5 config
  let array1 := array.set 0 CLIENT.JERRY_DEBUGGER_EVAL
  setUint32 config.littleEndian array1 1 (array.length - 1 - 4)

/-- `evaluate` (src lines 648–672): rejected while not halted; otherwise
increments `evalsPending`, builds the headered buffer and fragments it
through the request queue.  The outer `none` models divergence of the
fragmentation loop. -/
def evaluate (sendOk : List Nat → Bool) (st : HandlerState) (expression : List Nat) :
    Option (Option CmdResult × HandlerState × List Event × List (List Nat)) :=
  if st.lastBreakpointHit.isNone then
    some (some (.rejected "attempted eval while not at breakpoint"), st, [], [])
  else
    let st1 := { st with evalsPending := st.evalsPending + 1 }
    let array := evalBuffer st1.byteConfig expression
    match evalSendLoop sendOk st1.maxMessageSize array.length array 0 st1 with
    | none => none
    | some (st2, evs, frags, res) => some (res, st2, evs, frags)

/-- The tail loop of `sendClientSource` (src lines 770–780), fuelled like the
eval loop. -/
def clientSourceLoop (sendOk : List Nat → Bool) (max : Nat) :
    Nat → List Nat → Nat → HandlerState →
      Option (HandlerState × List Event × Option CmdResult)
  | 0, arr, offset, st =>
    if offset < arr.length then none else some (st, [], none)
  | fuel + 1, arr, offset, st =>
    if offset < arr.length then
      let arr1 := arr.set offset CLIENT.JERRY_DEBUGGER_CLIENT_SOURCE_PART
      let frag := (arr1.drop offset).take max
      let sent := sendSimpleRequest sendOk st frag
      match clientSourceLoop sendOk max fuel arr1 (offset + (max - 1)) sent.2.1 with
      | none => none
      | some (st2, evs2, res2) =>
        some (st2, sent.2.2 ++ evs2, some (res2.getD sent.1))
    else some (st, [], none)

/-- `sendClientSource` (src lines 755–781): rejected unless wait-for-source
is enabled, which it clears; encodes `name NUL source` with a 5-byte header,
tags the first fragment `CLIENT_SOURCE` and the rest `CLIENT_SOURCE_PART`.
The outer `none` models divergence of the tail loop. -/
def sendClientSource (sendOk : List Nat → Bool) (st : HandlerState)
    (fileName fileSourceCode : List Nat) :
    Option (CmdResult × HandlerState × List Event) :=
  if ¬st.waitForSourceEnabled then
    some (.rejected "wait-for-source not enabled", st, [])
  else
    let st1 := { st with waitForSourceEnabled := false }
    let array := stringToCesu8 (fileName ++ 0 :: fileSourceCode) 5 st1.byteConfig
    let byteLength := array.length
    let array1 := array.set 0 CLIENT.JERRY_DEBUGGER_CLIENT_SOURCE
    if byteLength ≤ st1.maxMessageSize then
      some (sendSimpleRequest sendOk st1 array1)
    else
      let sent := sendSimpleRequest sendOk st1 (array1.take st1.maxMessageSize)
      match clientSourceLoop sendOk st1.maxMessageSize byteLength array1
          (st1.maxMessageSize - 1) sent.2.1 with
      | none => none
      | some (st2, evs2, res2) =>
        some (res2.getD sent.1, st2, sent.2.2 ++ evs2)

/-- `sendClientSourceControl` (src lines 783–791): only `NO_MORE_SOURCES`
and `CONTEXT_RESET` are valid control codes. -/
def sendClientSourceControl (sendOk : List Nat → Bool) (st : HandlerState) (code : Nat) :
    CmdResult × HandlerState × List Event :=
  if code ≠ CLIENT.JERRY_DEBUGGER_NO_MORE_SOURCES ∧
      code ≠ CLIENT.JERRY_DEBUGGER_CONTEXT_RESET then
    (.rejected "Invalid source sending control code.", st, [])
  else
    match encodeMessage st.byteConfig ['B'] [code] with
    | .error e => (.rejected e, st, [])
    | .ok bytes => sendSimpleRequest sendOk st bytes

/-- `updateBreakpoint` (src lines 693–717): enabling an already-active or
disabling an already-inactive breakpoint is rejected with the state and the
breakpoint unchanged; otherwise the active set and the breakpoint's
`activeIndex` are updated (the in-place mutation of the shared breakpoint
object is modelled by returning the updated record) and the BBCI frame is
sent. -/
def updateBreakpoint (sendOk : List Nat → Bool) (st : HandlerState) (breakpoint : Breakpoint)
    (enable : Bool) : CmdResult × HandlerState × Breakpoint × List Event :=
  if enable then
    if breakpoint.activeIndex ≠ -1 then
      (.rejected "breakpoint already enabled", st, breakpoint, [])
    else
      let breakpointId := st.nextBreakpointIndex
      let bp1 := { breakpoint with activeIndex := (breakpointId : Int) }
      let st1 := { st with
        nextBreakpointIndex := st.nextBreakpointIndex + 1
        activeBreakpoints := insertAssoc st.activeBreakpoints breakpointId bp1 }
      match encodeMessage st1.byteConfig ['B', 'B', 'C', 'I']
          [CLIENT.JERRY_DEBUGGER_UPDATE_BREAKPOINT, 1, bp1.funcByteCodeCP, bp1.offset] with
      | .error e => (.rejected e, st1, bp1, [])
      | .ok bytes =>
        let sent := sendSimpleRequest sendOk st1 bytes
        (sent.1, sent.2.1, bp1, sent.2.2)
  else
    if breakpoint.activeIndex = -1 then
      (.rejected "breakpoint already disabled", st, breakpoint, [])
    else
      let breakpointId := breakpoint.activeIndex.toNat
      let bp1 := { breakpoint with activeIndex := -1 }
      let st1 := { st with activeBreakpoints := removeAssoc st.activeBreakpoints breakpointId }
      match encodeMessage st1.byteConfig ['B', 'B', 'C', 'I']
          [CLIENT.JERRY_DEBUGGER_UPDATE_BREAKPOINT, 0, bp1.funcByteCodeCP, bp1.offset] with
      | .error e => (.rejected e, st1, bp1, [])
      | .ok bytes =>
        let sent := sendSimpleRequest sendOk st1 bytes
        (sent.1, sent.2.1, bp1, sent.2.2)

/-- `requestBacktrace` (src lines 719–724): rejected while not halted;
otherwise submits GET_BACKTRACE as a tracked request. -/
def requestBacktrace (sendOk : List Nat → Bool) (st : HandlerState) :
    CmdResult × HandlerState × List Event :=
  if st.lastBreakpointHit.isNone then
    (.rejected "backtrace not allowed while app running", st, [])
  else
    match encodeMessage st.byteConfig ['B', 'I'] [CLIENT.JERRY_DEBUGGER_GET_BACKTRACE, 0] with
    | .error e => (.rejected e, st, [])
    | .ok bytes => sendRequest sendOk st bytes

/-! ## C1: breakpoint resolution by bytecode offset -/

theorem getBreakpoint_of_mem (func : ParsedFunction) (offset : Nat)
    (hnd : (func.offsets.map Prod.fst).Nodup) (bp : Breakpoint)
    (hbp : (offset, bp) ∈ func.offsets) :
    getBreakpoint func offset = { breakpoint := some bp, exact := true } := by
  have hlook : lookupAssoc func.offsets offset = some bp := lookupAssoc_of_mem hnd hbp
  rw [getBreakpoint, hlook]

theorem lookupAssoc_eq_none_of_key_not_mem {α : Type} {m : List (Nat × α)} {k : Nat}
    (h : k ∉ m.map Prod.fst) : lookupAssoc m k = none := by
  refine lookupAssoc_eq_none ?_
  intro v hv
  exact h (List.mem_map.mpr ⟨(k, v), hv, rfl⟩)

/-- C1: resolution of a reported hit location against a function's offsets
map (`getBreakpoint`): an exact entry at `offset` is returned marked exact;
otherwise, when `offset` is strictly below `first_breakpoint_offset`, the
breakpoint stored at `first_breakpoint_offset` is returned marked exact;
otherwise the breakpoint stored at the largest stored offset that is at most
`offset` is returned marked inexact.  The hypotheses state that the function
is a well-formed member of the breakpoint model: distinct offset keys, and
`firstBreakpointOffset` a stored key (as `ParsedFunction` construction
from the engine's offset list guarantees). -/
theorem C1_getBreakpoint_resolution
    (func : ParsedFunction) (offset f : Nat) (bpf : Breakpoint)
    (hnd : (func.offsets.map Prod.fst).Nodup)
    (hfirst : func.firstBreakpointOffset = some f)
    (hf : (f, bpf) ∈ func.offsets) :
    (∀ bp : Breakpoint, (offset, bp) ∈ func.offsets →
      getBreakpoint func offset = { breakpoint := some bp, exact := true }) ∧
    (offset ∉ func.offsets.map Prod.fst → offset < f →
      getBreakpoint func offset = { breakpoint := some bpf, exact := true }) ∧
    (offset ∉ func.offsets.map Prod.fst → f ≤ offset →
      ∃ k bpk, (k, bpk) ∈ func.offsets ∧ k ≤ offset ∧
        (∀ p ∈ func.offsets, p.1 ≤ offset → p.1 ≤ k) ∧
        getBreakpoint func offset = { breakpoint := some bpk, exact := false }) := by
  refine ⟨fun bp hbp => getBreakpoint_of_mem func offset hnd bp hbp, ?_, ?_⟩
  · intro hkey hlt
    have hnone : lookupAssoc func.offsets offset = none :=
      lookupAssoc_eq_none_of_key_not_mem hkey
    have hlookf : lookupAssoc func.offsets f = some bpf := lookupAssoc_of_mem hnd hf
    rw [getBreakpoint, hnone, hfirst]
    have hcond : jsLtOpt offset (some f) = true := by
      simp [jsLtOpt, hlt]
    rw [if_pos hcond]
    simp [Option.bind, hlookf]
  · intro hkey hge
    have hnone : lookupAssoc func.offsets offset = none :=
      lookupAssoc_eq_none_of_key_not_mem hkey
    rcases nearestFrom_spec offset func.offsets (-1) with ⟨hval, -, hmax⟩
    have hfle : (f : Int) ≤ nearestFrom func.offsets offset (-1) :=
      hmax (f, bpf) hf (by exact_mod_cast hge)
    have hpos : (0 : Int) ≤ nearestFrom func.offsets offset (-1) := by
      have : (0 : Int) ≤ (f : Int) := Int.natCast_nonneg f
      omega
    rcases hval with heq | ⟨p, hpmem, hpeq, hple⟩
    · rw [heq] at hpos
      omega
    · refine ⟨p.1, p.2, by simpa using hpmem, hple, ?_, ?_⟩
      · intro q hq hqle
        have hqi : (q.1 : Int) ≤ nearestFrom func.offsets offset (-1) :=
          hmax q hq (by exact_mod_cast hqle)
        rw [hpeq] at hqi
        exact_mod_cast hqi
      · have hlookp : lookupAssoc func.offsets p.1 = some p.2 :=
          lookupAssoc_of_mem hnd (by simpa using hpmem)
        have hcond : jsLtOpt offset func.firstBreakpointOffset = false := by
          rw [hfirst]
          simp [jsLtOpt]
          omega
        rw [getBreakpoint, hnone, hcond]
        simp only [Bool.false_eq_true, if_false]
        have htn : (nearestFrom func.offsets offset (-1)).toNat = p.1 := by
          rw [hpeq]
          exact Int.toNat_natCast p.1
        have hnlt : ¬nearestFrom func.offsets offset (-1) < 0 := by omega
        rw [if_neg hnlt, htn, hlookp]

/-- The two-offset function of spec scenario 4: lines `[16, 25]`, offsets
`[64, 125]`. -/
def sampleInexactFrame : ParserStackFrame :=
  { isFunc := true, scriptId := 1, line := 1, column := 1, name := [], source := [],
    sourceName := none, lines := [16, 25], offsets := [64, 125] }

/-- Witness for C1: on the function with offsets `[64, 125]`, a hit at the
stored offset 125 resolves exactly (via the theorem), and a hit at offset
100 resolves to the breakpoint at offset 64 marked inexact. -/
theorem C1_witness :
    getBreakpoint (ParsedFunction.ofFrame 42 sampleInexactFrame) 125 =
      { breakpoint := some
          { scriptId := 1, funcByteCodeCP := 42, line := 25, offset := 125, activeIndex := -1 },
        exact := true } ∧
    getBreakpoint (ParsedFunction.ofFrame 42 sampleInexactFrame) 100 =
      { breakpoint := some
          { scriptId := 1, funcByteCodeCP := 42, line := 16, offset := 64, activeIndex := -1 },
        exact := false } := by
  refine ⟨?_, by decide⟩
  exact (C1_getBreakpoint_resolution (ParsedFunction.ofFrame 42 sampleInexactFrame) 125 64
    { scriptId := 1, funcByteCodeCP := 42, line := 16, offset := 64, activeIndex := -1 }
    (by decide) (by decide) (by decide)).1
    { scriptId := 1, funcByteCodeCP := 42, line := 25, offset := 125, activeIndex := -1 }
    (by decide)

/-! ## Concrete session material shared by witnesses and counterexamples -/

/-- A delegate providing every callback. -/
def delegateAll : Delegate :=
  { hasOnBacktrace := true, hasOnBreakpointHit := true, hasOnExceptionHit := true
    hasOnEvalResult := true, hasOnError := true, hasOnResume := true
    hasOnScriptParsed := true, hasOnWaitForSource := true }

/-- A transport whose `send` always succeeds. -/
def sendAlways : List Nat → Bool := fun _ => true

/-- A valid CONFIGURATION frame: `[tag, max_message_size = 128,
cpointer_size = 2, little_endian = 1, version]`. -/
def configFrame2 : List Nat :=
  [SERVER.JERRY_DEBUGGER_CONFIGURATION, 128, 2, 1, JERRY_DEBUGGER_VERSION]

/-! ## C10: totality of `getSource` -/

/-- The session of the C10 counterexample: configuration, then a function
promotion with no source (`PARSE_FUNCTION` at line 1 column 1 followed by
`BYTE_CODE_CP` for pointer 42) which advances `nextScriptID` to 2, then a
`SOURCE_CODE_END` frame `"abc"` stored at index 2 — leaving index 1 a hole
of the sparse script table. -/
def holeTraceState : HandlerState :=
  (onMessage delegateAll sendAlways
    (onMessage delegateAll sendAlways
      (onMessage delegateAll sendAlways
        (onMessage delegateAll sendAlways initialState configFrame2).state
        [SERVER.JERRY_DEBUGGER_PARSE_FUNCTION, 1, 0, 0, 0, 1, 0, 0, 0]).state
      [SERVER.JERRY_DEBUGGER_BYTE_CODE_CP, 42, 0]).state
    [SERVER.JERRY_DEBUGGER_SOURCE_CODE_END, 97, 98, 99]).state

/-- C10 counterexample: in the reachable state of `holeTraceState`, script
id 1 is below the table length but `getSource 1` fails (the JavaScript code
throws a `TypeError` on the hole, modelled by `none`) instead of returning
the empty string, while ids 0 and 2 behave. -/
theorem C10_counterexample :
    1 < holeTraceState.sources.length ∧
    getSource holeTraceState 1 = none ∧
    getSource holeTraceState 0 = some [] ∧
    getSource holeTraceState 2 = some [97, 98, 99] := by
  decide

/-- C10 (amended): `getSource` returns the stored source (or the empty
string when the entry lacks one) for every script id below the table length
at which an entry is stored, and the empty string for every id at or past
the length; on a hole below the length it fails. -/
theorem C10_getSource_total_except_holes (st : HandlerState) (scriptId : Nat) :
    (∀ ps : ParsedSource, scriptId < st.sources.length →
      st.sources.getD scriptId none = some ps →
      getSource st scriptId = some (ps.source.getD [])) ∧
    (st.sources.length ≤ scriptId → getSource st scriptId = some []) ∧
    (scriptId < st.sources.length → st.sources.getD scriptId none = none →
      getSource st scriptId = none) := by
  refine ⟨?_, ?_, ?_⟩
  · intro ps hlt hget
    rw [getSource, if_pos hlt, hget]
  · intro hge
    rw [getSource, if_neg (by omega)]
  · intro hlt hget
    rw [getSource, if_pos hlt, hget]

/-- Witness for C10's amended theorem at the concrete hole state. -/
theorem C10_witness :
    getSource holeTraceState 0 = some [] ∧
    getSource holeTraceState 5 = some [] ∧
    getSource holeTraceState 1 = none := by
  refine ⟨?_, ?_, ?_⟩
  · exact (C10_getSource_total_except_holes holeTraceState 0).1
      { name := none, source := none } (by decide) (by decide)
  · exact (C10_getSource_total_except_holes holeTraceState 5).2.1 (by decide)
  · exact (C10_getSource_total_except_holes holeTraceState 1).2.2 (by decide) (by decide)

/-! ## C5: assignment of `cpointerSize` -/

theorem sendSimpleRequest_state (sendOk : List Nat → Bool) (st : HandlerState)
    (data : List Nat) : (sendSimpleRequest sendOk st data).2.1 = st := by
  unfold sendSimpleRequest
  split <;> rfl

theorem releaseFunction_byteConfig {st st' : HandlerState} {cp : Nat}
    (h : releaseFunction st cp = .ok st') : st'.byteConfig = st.byteConfig := by
  unfold releaseFunction at h
  repeat' split at h
  all_goals first
    | (injection h with h2; rw [← h2])
    | exact Except.noConfusion h

theorem onByteCodeCP_byteConfig (d : Delegate) (st : HandlerState) (data : List Nat) :
    (onByteCodeCP d st data).state.byteConfig = st.byteConfig := by
  unfold onByteCodeCP
  repeat' split
  all_goals rfl

theorem onParseFunction_byteConfig (d : Delegate) (st : HandlerState) (data : List Nat) :
    (onParseFunction d st data).state.byteConfig = st.byteConfig := by
  unfold onParseFunction
  repeat' split
  all_goals rfl

theorem onBreakpointList_byteConfig (d : Delegate) (st : HandlerState) (data : List Nat) :
    (onBreakpointList d st data).state.byteConfig = st.byteConfig := by
  unfold onBreakpointList
  repeat' split
  all_goals rfl

theorem onSourceCode_byteConfig (d : Delegate) (st : HandlerState) (data : List Nat) :
    (onSourceCode d st data).state.byteConfig = st.byteConfig := by
  unfold onSourceCode
  repeat' split
  all_goals rfl

theorem onSourceCodeName_byteConfig (d : Delegate) (st : HandlerState) (data : List Nat) :
    (onSourceCodeName d st data).state.byteConfig = st.byteConfig := by
  unfold onSourceCodeName
  repeat' split
  all_goals rfl

theorem onFunctionName_byteConfig (d : Delegate) (st : HandlerState) (data : List Nat) :
    (onFunctionName d st data).state.byteConfig = st.byteConfig := by
  unfold onFunctionName
  repeat' split
  all_goals rfl

theorem onReleaseByteCodeCP_byteConfig (d : Delegate) (sendOk : List Nat → Bool)
    (st : HandlerState) (data : List Nat) :
    (onReleaseByteCodeCP d sendOk st data).state.byteConfig = st.byteConfig := by
  unfold onReleaseByteCodeCP
  dsimp only
  split
  case h_1 e heq => rfl
  case h_2 st1 heq =>
    rw [sendSimpleRequest_state]
    repeat' split at heq
    all_goals first
      | (injection heq with h2; rw [← h2])
      | exact Except.noConfusion heq
      | exact releaseFunction_byteConfig heq

theorem onBreakpointHit_byteConfig (d : Delegate) (st : HandlerState) (data : List Nat) :
    (onBreakpointHit d st data).state.byteConfig = st.byteConfig := by
  unfold onBreakpointHit
  dsimp only
  repeat' split
  all_goals rfl

theorem onBacktrace_byteConfig (d : Delegate) (st : HandlerState) (data : List Nat) :
    (onBacktrace d st data).state.byteConfig = st.byteConfig := by
  unfold onBacktrace
  dsimp only
  generalize onBacktraceLoop st.byteConfig st.functions data _ 1 st.backtrace = r
  obtain ⟨bt, err⟩ := r
  cases err
  all_goals dsimp only
  all_goals repeat' split
  all_goals rfl

theorem onEvalResult_byteConfig (d : Delegate) (st : HandlerState) (data : List Nat) :
    (onEvalResult d st data).state.byteConfig = st.byteConfig := by
  unfold onEvalResult
  repeat' split
  all_goals rfl

theorem onExceptionStr_byteConfig (d : Delegate) (st : HandlerState) (data : List Nat) :
    (onExceptionStr d st data).state.byteConfig = st.byteConfig := by
  unfold onExceptionStr
  repeat' split
  all_goals rfl

theorem onWaitForSource_byteConfig (d : Delegate) (st : HandlerState) (data : List Nat) :
    (onWaitForSource d st data).state.byteConfig = st.byteConfig := by
  rfl

theorem runHandler_byteConfig (d : Delegate) (sendOk : List Nat → Bool) (tag : Nat)
    (st : HandlerState) (data : List Nat) (out : StepOut)
    (htag : tag ≠ SERVER.JERRY_DEBUGGER_CONFIGURATION)
    (h : runHandler d sendOk tag st data = some out) :
    out.state.byteConfig = st.byteConfig := by
  rw [runHandler, if_neg htag] at h
  by_cases h1 : tag = SERVER.JERRY_DEBUGGER_BYTE_CODE_CP
  · rw [if_pos h1] at h; cases h; exact onByteCodeCP_byteConfig ..
  rw [if_neg h1] at h
  by_cases h2 : tag = SERVER.JERRY_DEBUGGER_PARSE_FUNCTION
  · rw [if_pos h2] at h; cases h; exact onParseFunction_byteConfig ..
  rw [if_neg h2] at h
  by_cases h3 : tag = SERVER.JERRY_DEBUGGER_BREAKPOINT_LIST ∨
    tag = SERVER.JERRY_DEBUGGER_BREAKPOINT_OFFSET_LIST
  · rw [if_pos h3] at h; cases h; exact onBreakpointList_byteConfig ..
  rw [if_neg h3] at h
  by_cases h4 : tag = SERVER.JERRY_DEBUGGER_SOURCE_CODE ∨
    tag = SERVER.JERRY_DEBUGGER_SOURCE_CODE_END
  · rw [if_pos h4] at h; cases h; exact onSourceCode_byteConfig ..
  rw [if_neg h4] at h
  by_cases h5 : tag = SERVER.JERRY_DEBUGGER_SOURCE_CODE_NAME ∨
    tag = SERVER.JERRY_DEBUGGER_SOURCE_CODE_NAME_END
  · rw [if_pos h5] at h; cases h; exact onSourceCodeName_byteConfig ..
  rw [if_neg h5] at h
  by_cases h6 : tag = SERVER.JERRY_DEBUGGER_FUNCTION_NAME ∨
    tag = SERVER.JERRY_DEBUGGER_FUNCTION_NAME_END
  · rw [if_pos h6] at h; cases h; exact onFunctionName_byteConfig ..
  rw [if_neg h6] at h
  by_cases h7 : tag = SERVER.JERRY_DEBUGGER_RELEASE_BYTE_CODE_CP
  · rw [if_pos h7] at h; cases h; exact onReleaseByteCodeCP_byteConfig ..
  rw [if_neg h7] at h
  by_cases h8 : tag = SERVER.JERRY_DEBUGGER_BREAKPOINT_HIT ∨
    tag = SERVER.JERRY_DEBUGGER_EXCEPTION_HIT
  · rw [if_pos h8] at h; cases h; exact onBreakpointHit_byteConfig ..
  rw [if_neg h8] at h
  by_cases h9 : tag = SERVER.JERRY_DEBUGGER_EXCEPTION_STR ∨
    tag = SERVER.JERRY_DEBUGGER_EXCEPTION_STR_END
  · rw [if_pos h9] at h; cases h; exact onExceptionStr_byteConfig ..
  rw [if_neg h9] at h
  by_cases h10 : tag = SERVER.JERRY_DEBUGGER_BACKTRACE ∨
    tag = SERVER.JERRY_DEBUGGER_BACKTRACE_END
  · rw [if_pos h10] at h; cases h; exact onBacktrace_byteConfig ..
  rw [if_neg h10] at h
  by_cases h11 : tag = SERVER.JERRY_DEBUGGER_EVAL_RESULT ∨
    tag = SERVER.JERRY_DEBUGGER_EVAL_RESULT_END
  · rw [if_pos h11] at h; cases h; exact onEvalResult_byteConfig ..
  rw [if_neg h11] at h
  by_cases h12 : tag = SERVER.JERRY_DEBUGGER_WAIT_FOR_SOURCE
  · rw [if_pos h12] at h; cases h; exact onWaitForSource_byteConfig ..
  rw [if_neg h12] at h
  exact Option.noConfusion h

theorem onMessage_byteConfig_of_handler (d : Delegate) (sendOk : List Nat → Bool)
    (st : HandlerState) (msg : List Nat)
    (h : ∀ out, runHandler d sendOk (msg.getD 0 0) st msg = some out →
      out.state.byteConfig = st.byteConfig) :
    (onMessage d sendOk st msg).state.byteConfig = st.byteConfig := by
  unfold onMessage
  split
  · rfl
  · split
    · rfl
    · dsimp only
      split
      · rename_i out heq
        have hbc := h out heq
        repeat' split
        all_goals exact hbc
      · rfl

/-- C5 counterexample: a second CONFIGURATION frame reassigns
`byteConfig.cpointerSize`.  After a first valid frame with pointer size 2,
a later frame with pointer size 4 changes the stored value. -/
theorem C5_counterexample :
    (onMessage delegateAll sendAlways initialState configFrame2).state.byteConfig.cpointerSize
      = 2 ∧
    (onMessage delegateAll sendAlways
        (onMessage delegateAll sendAlways initialState configFrame2).state
        [SERVER.JERRY_DEBUGGER_CONFIGURATION, 128, 4, 1,
          JERRY_DEBUGGER_VERSION]).state.byteConfig.cpointerSize = 4 := by
  decide

/-- C5 (amended): `cpointerSize` is first assigned by the first
CONFIGURATION frame (`onMessage` requires the first frame to be one), and no
frame of any other kind ever changes it; but every CONFIGURATION frame of at
least 5 bytes — first or later, accepted or rejected — assigns it to the
frame's third byte, so a later CONFIGURATION frame can change it.  A
CONFIGURATION frame shorter than 5 bytes leaves it unchanged. -/
theorem C5_cpointer_assignment (d : Delegate) (sendOk : List Nat → Bool)
    (st : HandlerState) (msg : List Nat) :
    (msg.getD 0 0 ≠ SERVER.JERRY_DEBUGGER_CONFIGURATION →
      (onMessage d sendOk st msg).state.byteConfig.cpointerSize =
        st.byteConfig.cpointerSize) ∧
    (msg.getD 0 0 = SERVER.JERRY_DEBUGGER_CONFIGURATION → 5 ≤ msg.length →
      (onMessage d sendOk st msg).state.byteConfig.cpointerSize = msg.getD 2 0) ∧
    (msg.getD 0 0 = SERVER.JERRY_DEBUGGER_CONFIGURATION → msg.length < 5 →
      (onMessage d sendOk st msg).state.byteConfig.cpointerSize =
        st.byteConfig.cpointerSize) := by
  refine ⟨?_, ?_, ?_⟩
  · intro htag
    exact congrArg ByteConfig.cpointerSize
      (onMessage_byteConfig_of_handler d sendOk st msg
        (fun out hout => runHandler_byteConfig d sendOk (msg.getD 0 0) st msg out htag hout))
  · intro htag hlen
    have hnemp : ¬msg.length < 1 := by omega
    have hrun : runHandler d sendOk (msg.getD 0 0) st msg =
        some (onConfiguration d st msg) := by
      rw [runHandler, if_pos htag]
    have hcp : (onConfiguration d st msg).state.byteConfig.cpointerSize = msg.getD 2 0 := by
      rw [onConfiguration, if_neg (by omega)]
    have hthrown : (onConfiguration d st msg).thrown = none := by
      rw [onConfiguration, if_neg (by omega)]
    have htruthy : (onConfiguration d st msg).truthy = false := by
      rw [onConfiguration, if_neg (by omega)]
    rw [onMessage, if_neg hnemp, if_neg (fun hand => hand.2 htag)]
    dsimp only
    rw [hrun]
    dsimp only
    rw [hthrown]
    dsimp only
    rw [htruthy]
    cases st.currentRequest <;> exact hcp
  · intro htag hlen
    have hnemp : ¬msg.length < 1 := by
      intro hlt
      have hnil : msg = [] := List.eq_nil_of_length_eq_zero (by omega)
      rw [hnil] at htag
      exact absurd htag (by decide)
    have hrun : runHandler d sendOk (msg.getD 0 0) st msg =
        some (onConfiguration d st msg) := by
      rw [runHandler, if_pos htag]
    have hst : (onConfiguration d st msg).state = st := by
      rw [onConfiguration, if_pos hlen]
    have hthrown : (onConfiguration d st msg).thrown = none := by
      rw [onConfiguration, if_pos hlen]
    have htruthy : (onConfiguration d st msg).truthy = false := by
      rw [onConfiguration, if_pos hlen]
    rw [onMessage, if_neg hnemp, if_neg (fun hand => hand.2 htag)]
    dsimp only
    rw [hrun]
    dsimp only
    rw [hthrown]
    dsimp only
    rw [htruthy]
    cases st.currentRequest <;> rw [hst]

/-! ## C3: frames ignored while evals are pending -/

/-- C3: in every state with `evalsPending > 0`, processing a
`SOURCE_CODE_END`, `BREAKPOINT_LIST`, `BYTE_CODE_CP` or
`RELEASE_BYTE_CODE_CP` frame leaves the script table (`sources`), the
function tables (`functions` and `newFunctions`) and the active-breakpoint
set unchanged. -/
theorem C3_evalsPending_freezes_tables (d : Delegate) (sendOk : List Nat → Bool)
    (st : HandlerState) (msg : List Nat)
    (hev : 0 < st.evalsPending)
    (htag : msg.getD 0 0 = SERVER.JERRY_DEBUGGER_SOURCE_CODE_END ∨
      msg.getD 0 0 = SERVER.JERRY_DEBUGGER_BREAKPOINT_LIST ∨
      msg.getD 0 0 = SERVER.JERRY_DEBUGGER_BYTE_CODE_CP ∨
      msg.getD 0 0 = SERVER.JERRY_DEBUGGER_RELEASE_BYTE_CODE_CP) :
    (onMessage d sendOk st msg).state.sources = st.sources ∧
    (onMessage d sendOk st msg).state.functions = st.functions ∧
    (onMessage d sendOk st msg).state.newFunctions = st.newFunctions ∧
    (onMessage d sendOk st msg).state.activeBreakpoints = st.activeBreakpoints := by
  have hev' : st.evalsPending ≠ 0 := by omega
  suffices hstate : (onMessage d sendOk st msg).state = st by
    rw [hstate]
    exact ⟨rfl, rfl, rfl, rfl⟩
  obtain ⟨out, hrun, hst, htr, hth⟩ :
      ∃ out, runHandler d sendOk (msg.getD 0 0) st msg = some out ∧
        out.state = st ∧ out.truthy = false ∧ out.thrown = none := by
    rcases htag with h | h | h | h
    · exact ⟨onSourceCode d st msg, by rw [h]; rfl, by rw [onSourceCode, if_pos hev'],
        by rw [onSourceCode, if_pos hev'], by rw [onSourceCode, if_pos hev']⟩
    · exact ⟨onBreakpointList d st msg, by rw [h]; rfl, by rw [onBreakpointList, if_pos hev'],
        by rw [onBreakpointList, if_pos hev'], by rw [onBreakpointList, if_pos hev']⟩
    · exact ⟨onByteCodeCP d st msg, by rw [h]; rfl, by rw [onByteCodeCP, if_pos hev'],
        by rw [onByteCodeCP, if_pos hev'], by rw [onByteCodeCP, if_pos hev']⟩
    · refine ⟨onReleaseByteCodeCP d sendOk st msg, by rw [h]; rfl, ?_, ?_, ?_⟩
      · rw [onReleaseByteCodeCP]
        dsimp only
        rw [if_pos hev']
        dsimp only
        rw [sendSimpleRequest_state]
      · rw [onReleaseByteCodeCP]
        dsimp only
        rw [if_pos hev']
      · rw [onReleaseByteCodeCP]
        dsimp only
        rw [if_pos hev']
  by_cases hlen : msg.length < 1
  · rw [onMessage, if_pos hlen]
  · rw [onMessage, if_neg hlen]
    by_cases hg : st.byteConfig.cpointerSize = 0 ∧
      msg.getD 0 0 ≠ SERVER.JERRY_DEBUGGER_CONFIGURATION
    · rw [if_pos hg]
    · rw [if_neg hg]
      dsimp only
      rw [hrun]
      dsimp only
      rw [hth]
      dsimp only
      rw [htr]
      cases st.currentRequest <;> (dsimp only; rw [hst])

/-- A configured, halted state with one eval pending, used by witnesses. -/
def pendingEvalState : HandlerState :=
  { (onMessage delegateAll sendAlways initialState configFrame2).state with
    evalsPending := 1 }

/-- Witness for C3: with one eval pending, a `BREAKPOINT_LIST` frame leaves
the tables of the configured state unchanged. -/
theorem C3_witness :
    0 < pendingEvalState.evalsPending ∧
    (onMessage delegateAll sendAlways pendingEvalState
      [SERVER.JERRY_DEBUGGER_BREAKPOINT_LIST, 25, 0, 0, 0]).state.functions =
      pendingEvalState.functions ∧
    (onMessage delegateAll sendAlways pendingEvalState
      [SERVER.JERRY_DEBUGGER_SOURCE_CODE_END, 97]).state.sources =
      pendingEvalState.sources := by
  refine ⟨by decide, ?_, ?_⟩
  · exact (C3_evalsPending_freezes_tables delegateAll sendAlways pendingEvalState
      [SERVER.JERRY_DEBUGGER_BREAKPOINT_LIST, 25, 0, 0, 0] (by decide)
      (Or.inr (Or.inl (by decide)))).2.1
  · exact (C3_evalsPending_freezes_tables delegateAll sendAlways pendingEvalState
      [SERVER.JERRY_DEBUGGER_SOURCE_CODE_END, 97] (by decide)
      (Or.inl (by decide))).1

/-! ## C4: validation of the first (configuration) frame -/

/-- Whether an event is the delegate's `onError` callback. -/
def isErrorEvent : Event → Bool
  | Event.errorEv _ _ => true
  | _ => false

/-- C4: the first inbound frame signals a fatal error through the delegate's
`onError` exactly when it is not a valid configuration frame: tag
`CONFIGURATION`, at least 5 bytes, a compressed-pointer size of 2 or 4, and
the compiled-in protocol version (trailing bytes are allowed). -/
theorem C4_first_frame_validation (msg : List Nat) :
    ((onMessage delegateAll sendAlways initialState msg).events.any isErrorEvent = false) ↔
      (msg.getD 0 0 = SERVER.JERRY_DEBUGGER_CONFIGURATION ∧ 5 ≤ msg.length ∧
        (msg.getD 2 0 = 2 ∨ msg.getD 2 0 = 4) ∧
        msg.getD 4 0 = JERRY_DEBUGGER_VERSION) := by
  by_cases htag : msg.getD 0 0 = SERVER.JERRY_DEBUGGER_CONFIGURATION
  · have h1 : ¬ msg.length < 1 := by
      intro hl
      have hnil : msg = [] := List.eq_nil_of_length_eq_zero (by omega)
      rw [hnil] at htag
      exact absurd htag (by decide)
    rw [onMessage, if_neg h1, if_neg (fun hg => hg.2 htag)]
    dsimp only
    rw [htag]
    have hrun : runHandler delegateAll sendAlways SERVER.JERRY_DEBUGGER_CONFIGURATION
        initialState msg = some (onConfiguration delegateAll initialState msg) := rfl
    rw [hrun]
    by_cases h5 : msg.length < 5
    · rw [onConfiguration, if_pos h5]
      dsimp only
      constructor
      · intro h
        simp [abortEvents, delegateAll, isErrorEvent] at h
      · rintro ⟨_, h5', _⟩
        exact absurd h5' (by omega)
    · rw [onConfiguration, if_neg h5]
      dsimp only [initialState]
      by_cases hcp : ¬ msg.getD 2 0 = 2 ∧ ¬ msg.getD 2 0 = 4
      · rw [if_pos hcp]
        constructor
        · intro h
          simp [abortEvents, delegateAll, isErrorEvent] at h
        · rintro ⟨_, _, hcp2, _⟩
          rcases hcp2 with h2 | h4
          · exact absurd h2 hcp.1
          · exact absurd h4 hcp.2
      · rw [if_neg hcp]
        by_cases hv : ¬ msg.getD 4 0 = JERRY_DEBUGGER_VERSION
        · rw [if_pos hv]
          constructor
          · intro h
            simp [abortEvents, delegateAll, isErrorEvent] at h
          · rintro ⟨_, _, _, hv2⟩
            exact absurd hv2 hv
        · rw [if_neg hv]
          constructor
          · intro _
            refine ⟨rfl, by omega, by omega, by omega⟩
          · intro _
            rfl
  · by_cases h1 : msg.length < 1
    · rw [onMessage, if_pos h1]
      constructor
      · intro h
        simp [abortEvents, delegateAll, isErrorEvent] at h
      · rintro ⟨htag2, _⟩
        exact absurd htag2 htag
    · rw [onMessage, if_neg h1, if_pos ⟨rfl, htag⟩]
      constructor
      · intro h
        simp [abortEvents, delegateAll, isErrorEvent] at h
      · rintro ⟨htag2, _⟩
        exact absurd htag2 htag

/-! ## C6: commands invoked against their preconditions -/

/-- C6: every command invoked in a state violating its precondition — `pause`
while halted, `evaluate`, the resume family and `requestBacktrace` while not
halted, enabling an already-active or disabling an already-inactive
breakpoint, `sendClientSource` while not waiting for source and
`sendClientSourceControl` with an invalid control code — completes with a
rejection, sends nothing to the transport (no events at all) and leaves the
whole handler state unchanged. -/
theorem C6_precondition_failures (sendOk : List Nat → Bool) (d : Delegate)
    (st : HandlerState) (bp : Breakpoint) (code : Nat)
    (expression fileName fileSourceCode : List Nat) :
    (st.lastBreakpointHit.isSome →
      pause sendOk st = (.rejected "attempted pause while at breakpoint", st, [])) ∧
    (st.lastBreakpointHit.isNone →
      evaluate sendOk st expression =
        some (some (.rejected "attempted eval while not at breakpoint"), st, [], []) ∧
      stepOver d sendOk st = (.rejected "attempted resume while not at breakpoint", st, []) ∧
      stepInto d sendOk st = (.rejected "attempted resume while not at breakpoint", st, []) ∧
      stepOut d sendOk st = (.rejected "attempted resume while not at breakpoint", st, []) ∧
      resume d sendOk st = (.rejected "attempted resume while not at breakpoint", st, []) ∧
      requestBacktrace sendOk st =
        (.rejected "backtrace not allowed while app running", st, [])) ∧
    (bp.activeIndex ≠ -1 →
      updateBreakpoint sendOk st bp true = (.rejected "breakpoint already enabled", st, bp, [])) ∧
    (bp.activeIndex = -1 →
      updateBreakpoint sendOk st bp false =
        (.rejected "breakpoint already disabled", st, bp, [])) ∧
    (¬st.waitForSourceEnabled →
      sendClientSource sendOk st fileName fileSourceCode =
        some (.rejected "wait-for-source not enabled", st, [])) ∧
    (code ≠ CLIENT.JERRY_DEBUGGER_NO_MORE_SOURCES ∧
        code ≠ CLIENT.JERRY_DEBUGGER_CONTEXT_RESET →
      sendClientSourceControl sendOk st code =
        (.rejected "Invalid source sending control code.", st, [])) := by
  refine ⟨?_, ?_, ?_, ?_, ?_, ?_⟩
  · intro h
    rw [pause, if_pos h]
  · intro h
    refine ⟨?_, ?_, ?_, ?_, ?_, ?_⟩
    · rw [evaluate, if_pos h]
    · rw [stepOver, resumeExec, if_pos h]
    · rw [stepInto, resumeExec, if_pos h]
    · rw [stepOut, resumeExec, if_pos h]
    · rw [resume, resumeExec, if_pos h]
    · rw [requestBacktrace, if_pos h]
  · intro h
    rw [updateBreakpoint, if_pos rfl, if_pos h]
  · intro h
    rw [updateBreakpoint, if_neg (by decide), if_pos h]
  · intro h
    rw [sendClientSource, if_pos h]
  · intro h
    rw [sendClientSourceControl, if_pos h]

/-- A sample breakpoint already enabled (`activeIndex = 3`). -/
def activeSampleBp : Breakpoint :=
  { scriptId := 1, funcByteCodeCP := 42, line := 7, offset := 64, activeIndex := 3 }

/-- A state halted at `activeSampleBp`. -/
def haltedSampleState : HandlerState :=
  { initialState with lastBreakpointHit := some activeSampleBp }

/-- Witness for C6 at concrete inputs: `pause` while halted is rejected
without state change, and on the (running) initial state `evaluate` is
rejected, an already-enabled breakpoint cannot be enabled again, and control
code 99 is invalid. -/
theorem C6_witness :
    pause sendAlways haltedSampleState =
      (.rejected "attempted pause while at breakpoint", haltedSampleState, []) ∧
    evaluate sendAlways initialState [102] =
      some (some (.rejected "attempted eval while not at breakpoint"), initialState, [], []) ∧
    updateBreakpoint sendAlways initialState activeSampleBp true =
      (.rejected "breakpoint already enabled", initialState, activeSampleBp, []) ∧
    sendClientSourceControl sendAlways initialState 99 =
      (.rejected "Invalid source sending control code.", initialState, []) := by
  refine ⟨?_, ?_, ?_, ?_⟩
  · exact (C6_precondition_failures sendAlways delegateAll haltedSampleState activeSampleBp
      99 [102] [] []).1 (by decide)
  · exact ((C6_precondition_failures sendAlways delegateAll initialState activeSampleBp
      99 [102] [] []).2.1 (by decide)).1
  · exact (C6_precondition_failures sendAlways delegateAll initialState activeSampleBp
      99 [102] [] []).2.2.1 (by decide)
  · exact (C6_precondition_failures sendAlways delegateAll initialState activeSampleBp
      99 [102] [] []).2.2.2.2.2 (by decide)

/-! ## C7: breakpoint/exception hit reporting -/

/-- Folds a list of inbound frames through `onMessage` (used by the concrete
scenario states below). -/
def stepFrames (st : HandlerState) (frames : List (List Nat)) : HandlerState :=
  frames.foldl (fun s f => (onMessage delegateAll sendAlways s f).state) st

/-- A configured state with one parsed script and a function at compressed
pointer 42 with one breakpoint (line 16, offset 64). -/
def c7Ready : HandlerState :=
  stepFrames initialState
    [configFrame2, [8, 97], [5, 16, 0, 0, 0], [6, 64, 0, 0, 0], [3, 42, 0]]

/-- The breakpoint `c7Ready` stores at offset 64. -/
def c7Bp : Breakpoint :=
  { scriptId := 1, funcByteCodeCP := 42, line := 16, offset := 64, activeIndex := -1 }

/-- The parsed function `c7Ready` stores at compressed pointer 42. -/
def c7Func : ParsedFunction :=
  { byteCodeCP := 42, scriptId := 1, isFunc := false, line := 1, column := 1, name := []
    sourceLines := [[97]], sourceName := none
    lines := [(16, c7Bp)], offsets := [(64, c7Bp)]
    firstBreakpointLine := some 16, firstBreakpointOffset := some 64 }

/-- `c7Ready` after a BREAKPOINT_HIT at (42, 64). -/
def c7Halted : HandlerState :=
  (onMessage delegateAll sendAlways c7Ready [16, 42, 0, 64, 0, 0, 0]).state

/-- `c7Halted` after a `stepOver` command (which records stop type NEXT). -/
def c7AfterStep : HandlerState := (stepOver delegateAll sendAlways c7Halted).2.1

/-- `c7AfterStep` after an EXCEPTION_HIT frame at (42, 64). -/
def c7Final : MessageOut := onMessage delegateAll sendAlways c7AfterStep [17, 42, 0, 64, 0, 0, 0]

/-- C7 counterexample: after `stepOver` records stop type NEXT, an
EXCEPTION_HIT frame handled by an `onExceptionHit` delegate resolves and
stores the breakpoint and delivers the exception event, but does NOT clear
`lastStopType` — the early return in `onBreakpointHit` skips the trailing
`this.lastStopType = null`, contradicting the claim that the stop type is
cleared after every breakpoint/exception frame. -/
theorem C7_counterexample :
    c7AfterStep.lastStopType = some CLIENT.JERRY_DEBUGGER_NEXT ∧
    c7Final.events = [Event.exceptionHitEv c7Bp true none] ∧
    c7Final.state.lastBreakpointHit = some c7Bp ∧
    c7Final.state.lastStopType = some CLIENT.JERRY_DEBUGGER_NEXT := by decide

/-- C7 amended: when a BREAKPOINT_HIT or EXCEPTION_HIT frame decodes to a
known function and the hit resolves to a breakpoint, `lastBreakpointHit` is
set to it.  On an exception frame with an `onExceptionHit` delegate the
exception event is delivered with the recorded exception string and the
exception string is cleared, but `lastStopType` is left as it was.  In every
other case `lastStopType` is cleared and, when the delegate listens, a
breakpoint event is delivered whose label is "breakpoint (<type>)" — prefixed
with "inactive " exactly when the breakpoint's `activeIndex` is -1 — with
<type> the stop-type table's text for `lastStopType` and "entry" when none is
recorded. -/
theorem C7_breakpoint_hit (d : Delegate) (st : HandlerState) (data vals : List Nat)
    (func : ParsedFunction) (bp : Breakpoint)
    (hdec : decodeMessage st.byteConfig ['C', 'I'] data 1 = .ok vals)
    (hfn : lookupAssoc st.functions (vals.getD 0 0) = some func)
    (hbp : (getBreakpoint func (vals.getD 1 0)).breakpoint = some bp) :
    (onBreakpointHit d st data).state.lastBreakpointHit = some bp ∧
    (data.getD 0 0 = SERVER.JERRY_DEBUGGER_EXCEPTION_HIT ∧ d.hasOnExceptionHit →
      (onBreakpointHit d st data).state.lastStopType = st.lastStopType ∧
      (onBreakpointHit d st data).state.exceptionString = none ∧
      (onBreakpointHit d st data).events =
        [Event.exceptionHitEv bp (getBreakpoint func (vals.getD 1 0)).exact
          st.exceptionString]) ∧
    (¬(data.getD 0 0 = SERVER.JERRY_DEBUGGER_EXCEPTION_HIT ∧ d.hasOnExceptionHit) →
      (onBreakpointHit d st data).state.lastStopType = none ∧
      (onBreakpointHit d st data).events =
        (if d.hasOnBreakpointHit then
          [Event.breakpointHitEv bp (getBreakpoint func (vals.getD 1 0)).exact
            ((if bp.activeIndex = -1 then "inactive " else "") ++ "breakpoint (" ++
              ((st.lastStopType.bind stopTypeText).getD "entry") ++ ")")]
        else [])) := by
  rw [onBreakpointHit, hdec]
  dsimp only
  rw [hfn]
  dsimp only
  rw [hbp]
  dsimp only
  by_cases hex : data.getD 0 0 = SERVER.JERRY_DEBUGGER_EXCEPTION_HIT ∧ d.hasOnExceptionHit
  · rw [if_pos hex]
    exact ⟨rfl, fun _ => ⟨rfl, rfl, rfl⟩, fun hc => absurd hex hc⟩
  · rw [if_neg hex]
    exact ⟨rfl, fun hc => absurd hc hex, fun _ => ⟨rfl, rfl⟩⟩

/-- Witness for C7 at the concrete scenario: a fresh BREAKPOINT_HIT on
`c7Ready` stores the breakpoint, clears the (absent) stop type and reports
"inactive breakpoint (entry)" (the stored breakpoint was never enabled, so
its `activeIndex` is -1). -/
theorem C7_witness :
    (onBreakpointHit delegateAll c7Ready [16, 42, 0, 64, 0, 0, 0]).state.lastBreakpointHit =
      some c7Bp ∧
    (onBreakpointHit delegateAll c7Ready [16, 42, 0, 64, 0, 0, 0]).state.lastStopType = none ∧
    (onBreakpointHit delegateAll c7Ready [16, 42, 0, 64, 0, 0, 0]).events =
      [Event.breakpointHitEv c7Bp true "inactive breakpoint (entry)"] := by
  obtain ⟨h1, -, h3⟩ := C7_breakpoint_hit delegateAll c7Ready [16, 42, 0, 64, 0, 0, 0]
    [42, 64] c7Func c7Bp (by rfl) (by decide) (by decide)
  have h4 := h3 (by decide)
  refine ⟨h1, h4.1, ?_⟩
  rw [h4.2]
  decide

/-! ## C8: the tracked request queue -/

/-- C8: with a tracked request `c` in flight, `sendRequest` appends the new
request to the FIFO queue without sending anything; and when an inbound
frame completes the in-flight request (its handler ran, threw nothing and
returned a truthy value), `c` is resolved and the head of the queue is
submitted next — on a transport failure exactly that head is rejected, the
rest of the queue is kept and no further queued request is submitted by that
event. -/
theorem C8_request_queue (d : Delegate) (sendOk : List Nat → Bool) (st : HandlerState)
    (msg data c : List Nat) (out : StepOut)
    (hcur : st.currentRequest = some c)
    (hlen : ¬ msg.length < 1)
    (hguard : ¬(st.byteConfig.cpointerSize = 0 ∧
      msg.getD 0 0 ≠ SERVER.JERRY_DEBUGGER_CONFIGURATION))
    (hrun : runHandler d sendOk (msg.getD 0 0) st msg = some out)
    (hth : out.thrown = none)
    (htr : out.truthy = true) :
    sendRequest sendOk st data =
      (.pending, { st with requestQueue := st.requestQueue ++ [data] }, []) ∧
    (out.state.requestQueue = [] →
      onMessage d sendOk st msg =
        { state := { out.state with currentRequest := none }
          events := out.events ++ [Event.resolveEv c], thrown := none }) ∧
    (∀ next rest, out.state.requestQueue = next :: rest →
      (sendOk next = true →
        onMessage d sendOk st msg =
          { state := { out.state with requestQueue := rest, currentRequest := some next }
            events := out.events ++ [Event.resolveEv c, Event.sendEv next], thrown := none }) ∧
      (sendOk next = false →
        onMessage d sendOk st msg =
          { state := { out.state with requestQueue := rest }
            events := out.events ++ [Event.resolveEv c, Event.sendEv next,
              Event.rejectEv next "Failed to submit request."], thrown := none })) := by
  rw [onMessage, if_neg hlen, if_neg hguard]
  dsimp only
  rw [hrun]
  dsimp only
  rw [hth]
  dsimp only
  rw [hcur, htr]
  dsimp only
  refine ⟨?_, ?_, ?_⟩
  · rw [sendRequest, if_pos (by rw [hcur]; rfl), hcur]
  · intro hq
    rw [hq]
  · intro next rest hq
    rw [hq]
    dsimp only
    constructor
    · intro hsend
      rw [if_pos hsend]
    · intro hsend
      rw [if_neg (by rw [hsend]; exact Bool.false_ne_true)]

/-- A transport whose `send` always fails. -/
def sendNever : List Nat → Bool := fun _ => false

/-- The GET_BACKTRACE request frame (`'B','I'` format, cpointer 2 ignored by
`B`, little endian). -/
def btReq : List Nat := [16, 0, 0, 0, 0]

/-- `c7Halted` after two `requestBacktrace` calls: the first is in flight,
the second is queued. -/
def c8Busy : HandlerState :=
  (requestBacktrace sendAlways (requestBacktrace sendAlways c7Halted).2.1).2.1

/-- Witness for C8 at the concrete scenario: with one GET_BACKTRACE in
flight and a second queued, a further request only queues, and the
BACKTRACE_END frame resolves the in-flight request and submits the queued
one — or, on a failing transport, rejects exactly it and keeps the (empty)
rest of the queue. -/
theorem C8_witness :
    c8Busy.currentRequest = some btReq ∧
    c8Busy.requestQueue = [btReq] ∧
    sendRequest sendAlways c8Busy [99] =
      (.pending, { c8Busy with requestQueue := c8Busy.requestQueue ++ [[99]] }, []) ∧
    (onMessage delegateAll sendAlways c8Busy [21]).state.currentRequest = some btReq ∧
    (onMessage delegateAll sendAlways c8Busy [21]).state.requestQueue = [] ∧
    (onMessage delegateAll sendAlways c8Busy [21]).events =
      [Event.backtraceEv [], Event.resolveEv btReq, Event.sendEv btReq] ∧
    (onMessage delegateAll sendNever c8Busy [21]).state.requestQueue = [] ∧
    (onMessage delegateAll sendNever c8Busy [21]).events =
      [Event.backtraceEv [], Event.resolveEv btReq, Event.sendEv btReq,
        Event.rejectEv btReq "Failed to submit request."] := by
  obtain ⟨hA, -, hC⟩ := C8_request_queue delegateAll sendAlways c8Busy [21] [99] btReq
    (onBacktrace delegateAll c8Busy [21]) (by decide) (by decide) (by decide) rfl
    (by decide) (by decide)
  obtain ⟨-, -, hC2⟩ := C8_request_queue delegateAll sendNever c8Busy [21] [99] btReq
    (onBacktrace delegateAll c8Busy [21]) (by decide) (by decide) (by decide) rfl
    (by decide) (by decide)
  have h1 := (hC btReq [] (by decide)).1 (by decide)
  have h2 := (hC2 btReq [] (by decide)).2 (by decide)
  refine ⟨by decide, by decide, hA, by rw [h1], by rw [h1], ?_, by rw [h2], ?_⟩
  · rw [h1]
    decide
  · rw [h2]
    decide

/-! ## C2: eval buffer construction and fragmentation -/

/-- `sendRequest` never touches `evalsPending`. -/
theorem sendRequest_evalsPending (sendOk : List Nat → Bool) (st : HandlerState)
    (data : List Nat) : (sendRequest sendOk st data).2.1.evalsPending = st.evalsPending := by
  rw [sendRequest]
  repeat' split
  all_goals rfl

/-- Setting an element below the dropped prefix is invisible after the drop. -/
theorem drop_set_of_lt (l : List Nat) (i j v : Nat) (h : i < j) :
    (l.set i v).drop j = l.drop j := by
  apply List.ext_getElem?
  intro k
  rw [List.getElem?_drop, List.getElem?_drop, List.getElem?_set_ne (by omega)]

/-- The first element of a nonempty `take`. -/
theorem getD_zero_take (l : List Nat) (n : Nat) (hn : 0 < n) :
    (l.take n).getD 0 0 = l.getD 0 0 := by
  rw [List.getD_eq_getElem?_getD, List.getD_eq_getElem?_getD, List.getElem?_take, if_pos hn]

/-- The first element after dropping to an in-range `set` position. -/
theorem getD_zero_drop_set (l : List Nat) (i v : Nat) (hi : i < l.length) :
    ((l.set i v).drop i).getD 0 0 = v := by
  rw [List.getD_eq_getElem?_getD, List.getElem?_drop]
  rw [Nat.add_zero, List.getElem?_set_self hi]
  rfl

/-- The fragmentation loop of `evaluate`, for `maxMessageSize ≥ 2`: it
terminates within `arr.length - 1 - offset` iterations, keeps `evalsPending`,
emits fragments of 1..max bytes whose first is `(arr.drop offset).take
(min (arr.length - offset) max)`, overwrites the overlap byte of every later
fragment with EVAL_PART, and reconstructs `arr.drop offset` once each later
fragment's leading tag byte is dropped. -/
theorem evalSendLoop_spec (sendOk : List Nat → Bool) (max : Nat) (hmax : 2 ≤ max) :
    ∀ (fuel : Nat) (arr : List Nat) (offset : Nat) (st : HandlerState),
      arr.length - 1 - offset ≤ fuel →
      ∃ st2 evs frags res,
        evalSendLoop sendOk max fuel arr offset st = some (st2, evs, frags, res) ∧
        st2.evalsPending = st.evalsPending ∧
        (∀ f ∈ frags, 1 ≤ f.length ∧ f.length ≤ max) ∧
        (frags.map (fun f => f.drop 1)).flatten = arr.drop (offset + 1) ∧
        (offset < arr.length - 1 →
          frags.headD [] = (arr.drop offset).take (min (arr.length - offset) max) ∧
          frags ≠ []) ∧
        (¬offset < arr.length - 1 → frags = []) ∧
        (∀ f ∈ frags.tail, f.getD 0 0 = CLIENT.JERRY_DEBUGGER_EVAL_PART) ∧
        (offset < arr.length - 1 →
          frags.headD [] ++ (frags.tail.map (fun f => f.drop 1)).flatten = arr.drop offset) := by
  intro fuel
  induction fuel with
  | zero =>
    intro arr offset st hfuel
    have hoff : ¬ offset < arr.length - 1 := by omega
    refine ⟨st, [], [], none, if_neg hoff, rfl, (by intro f hf; cases hf), ?_,
      fun h => absurd h hoff, fun _ => rfl, (by intro f hf; cases hf),
      fun h => absurd h hoff⟩
    rw [List.map_nil, List.flatten_nil, List.drop_eq_nil_of_le (by omega)]
  | succ k ih =>
    intro arr offset st hfuel
    by_cases hoff : offset < arr.length - 1
    · have hcl2 : 2 ≤ min (arr.length - offset) max := le_min (by omega) hmax
      have hclle : min (arr.length - offset) max ≤ arr.length - offset :=
        min_le_left _ _
      have hset_len : (arr.set (offset + min (arr.length - offset) max - 1)
          CLIENT.JERRY_DEBUGGER_EVAL_PART).length = arr.length := List.length_set _ _ _
      obtain ⟨st2, evs2, frags2, res2, hA, hP, hB, hC, hD, hE, hF, hG⟩ :=
        ih (arr.set (offset + min (arr.length - offset) max - 1)
              CLIENT.JERRY_DEBUGGER_EVAL_PART)
           (offset + min (arr.length - offset) max - 1)
           (sendRequest sendOk st
             ((arr.drop offset).take (min (arr.length - offset) max))).2.1
           (by rw [hset_len]; omega)
      have hfraglen : ((arr.drop offset).take (min (arr.length - offset) max)).length =
          min (arr.length - offset) max := by
        rw [List.length_take, List.length_drop]
        omega
      refine ⟨st2,
        (sendRequest sendOk st
          ((arr.drop offset).take (min (arr.length - offset) max))).2.2 ++ evs2,
        ((arr.drop offset).take (min (arr.length - offset) max)) :: frags2,
        some (res2.getD (sendRequest sendOk st
          ((arr.drop offset).take (min (arr.length - offset) max))).1),
        ?_, ?_, ?_, ?_, ?_, ?_, ?_, ?_⟩
      · rw [evalSendLoop, if_pos hoff]
        dsimp only
        rw [hA]
      · rw [hP, sendRequest_evalsPending]
      · intro f hf
        rcases List.mem_cons.mp hf with rfl | hf2
        · rw [hfraglen]
          exact ⟨by omega, min_le_right _ _⟩
        · exact hB f hf2
      · rw [List.map_cons, List.flatten_cons, hC,
          drop_set_of_lt _ _ _ _ (by omega : offset + min (arr.length - offset) max - 1 <
            offset + min (arr.length - offset) max - 1 + 1)]
        have h1 : offset + min (arr.length - offset) max - 1 + 1 =
            offset + min (arr.length - offset) max := by omega
        rw [h1, List.drop_take, List.drop_drop]
        have h2 : arr.drop (offset + min (arr.length - offset) max) =
            (arr.drop (offset + 1)).drop (min (arr.length - offset) max - 1) := by
          rw [List.drop_drop]
          congr 1
          omega
        rw [h2, List.take_append_drop]
      · intro _
        exact ⟨rfl, List.cons_ne_nil _ _⟩
      · intro h
        exact absurd hoff h
      · intro f hf
        rcases hfr : frags2 with _ | ⟨g, gs⟩
        · rw [hfr] at hf
          cases hf
        · rw [hfr] at hf
          rcases List.mem_cons.mp hf with rfl | htl
          · by_cases hoff2 : offset + min (arr.length - offset) max - 1 <
                (arr.set (offset + min (arr.length - offset) max - 1)
                  CLIENT.JERRY_DEBUGGER_EVAL_PART).length - 1
            · have hoff2' : offset + min (arr.length - offset) max - 1 <
                  arr.length - 1 := by
                rw [hset_len] at hoff2
                exact hoff2
              have hhead := (hD hoff2).1
              rw [hfr, List.headD_cons] at hhead
              rw [hhead]
              rw [getD_zero_take _ _ (lt_min (by rw [hset_len]; omega) (by omega))]
              exact getD_zero_drop_set _ _ _ (by omega)
            · rw [hE hoff2] at hfr
              cases hfr
          · apply hF
            rw [hfr]
            exact htl
      · intro _
        rw [List.headD_cons, List.tail_cons, hC,
          drop_set_of_lt _ _ _ _ (by omega : offset + min (arr.length - offset) max - 1 <
            offset + min (arr.length - offset) max - 1 + 1)]
        have h1 : offset + min (arr.length - offset) max - 1 + 1 =
            offset + min (arr.length - offset) max := by omega
        rw [h1, ← List.drop_drop, List.take_append_drop]
    · refine ⟨st, [], [], none, ?_, rfl, (by intro f hf; cases hf), ?_,
        fun h => absurd h hoff, fun _ => rfl, (by intro f hf; cases hf),
        fun h => absurd h hoff⟩
      · rw [evalSendLoop, if_neg hoff]
      · rw [List.map_nil, List.flatten_nil, List.drop_eq_nil_of_le (by omega)]


/-- `uint32Bytes` always yields four bytes. -/
theorem uint32Bytes_length (le : Bool) (v : Nat) : (uint32Bytes le v).length = 4 := by
  rw [uint32Bytes]
  split <;> rfl

/-- `setUint32` at offset 1 of a five-byte-headed buffer writes the four
value bytes over bytes 1..4. -/
theorem setUint32_cons5 (le : Bool) (a b c d e : Nat) (rest : List Nat) (v : Nat) :
    setUint32 le (a :: b :: c :: d :: e :: rest) 1 v = a :: uint32Bytes le v ++ rest := by
  rw [setUint32, uint32Bytes]
  split <;> rfl

/-- The eval buffer is the EVAL tag, the four-byte payload length in the
session endianness, then the CESU-8 payload of the subtype-prefixed
expression. -/
theorem evalBuffer_shape (config : ByteConfig) (expr : List Nat) :
    evalBuffer config expr =
      CLIENT.JERRY_DEBUGGER_EVAL ::
        uint32Bytes config.littleEndian (((EVAL_SUBTYPE_EVAL :: expr).map encodeUnit).flatten.length) ++
        ((EVAL_SUBTYPE_EVAL :: expr).map encodeUnit).flatten := by
  rw [evalBuffer]
  rw [stringToCesu8, if_neg (List.cons_ne_nil _ _)]
  have hrep : (List.replicate 5 (0 : Nat) ++ ((EVAL_SUBTYPE_EVAL :: expr).map encodeUnit).flatten) =
      0 :: 0 :: 0 :: 0 :: 0 :: ((EVAL_SUBTYPE_EVAL :: expr).map encodeUnit).flatten := rfl
  rw [hrep]
  have hset : (0 :: 0 :: 0 :: 0 :: 0 :: ((EVAL_SUBTYPE_EVAL :: expr).map encodeUnit).flatten).set 0
      CLIENT.JERRY_DEBUGGER_EVAL =
      CLIENT.JERRY_DEBUGGER_EVAL :: 0 :: 0 :: 0 :: 0 ::
        ((EVAL_SUBTYPE_EVAL :: expr).map encodeUnit).flatten := rfl
  rw [hset, setUint32_cons5]
  have hv : (0 :: 0 :: 0 :: 0 :: 0 :: ((EVAL_SUBTYPE_EVAL :: expr).map encodeUnit).flatten).length - 1 - 4 =
      ((EVAL_SUBTYPE_EVAL :: expr).map encodeUnit).flatten.length := by
    simp only [List.length_cons]
    omega
  rw [hv]

/-- C2 amended: for `maxMessageSize ≥ 2`, `evaluate` while halted builds the
headered CESU-8 buffer (byte 0 = EVAL tag, bytes 1..5 = u32 payload length in
session endianness), increments `evalsPending` and splits the buffer into
packets of at most `maxMessageSize` bytes: the first carries the EVAL tag,
every later packet's first byte is overwritten with EVAL_PART, and the
concatenation of the first packet with the later packets' tag-stripped
payloads reconstructs the buffer. -/
theorem C2_evaluate_fragmentation (sendOk : List Nat → Bool) (st : HandlerState)
    (expression : List Nat)
    (hbp : st.lastBreakpointHit.isSome = true)
    (hmax : 2 ≤ st.maxMessageSize) :
    ∃ res st2 evs frags,
      evaluate sendOk st expression = some (res, st2, evs, frags) ∧
      evalBuffer st.byteConfig expression =
        CLIENT.JERRY_DEBUGGER_EVAL ::
          uint32Bytes st.byteConfig.littleEndian
            (((EVAL_SUBTYPE_EVAL :: expression).map encodeUnit).flatten.length) ++
          ((EVAL_SUBTYPE_EVAL :: expression).map encodeUnit).flatten ∧
      st2.evalsPending = st.evalsPending + 1 ∧
      frags ≠ [] ∧
      (∀ f ∈ frags, 1 ≤ f.length ∧ f.length ≤ st.maxMessageSize) ∧
      frags.headD [] = (evalBuffer st.byteConfig expression).take
        (min (evalBuffer st.byteConfig expression).length st.maxMessageSize) ∧
      (frags.headD []).getD 0 0 = CLIENT.JERRY_DEBUGGER_EVAL ∧
      (∀ f ∈ frags.tail, f.getD 0 0 = CLIENT.JERRY_DEBUGGER_EVAL_PART) ∧
      frags.headD [] ++ (frags.tail.map (fun f => f.drop 1)).flatten =
        evalBuffer st.byteConfig expression := by
  have hsh := evalBuffer_shape st.byteConfig expression
  have hplen : 1 ≤ ((EVAL_SUBTYPE_EVAL :: expression).map encodeUnit).flatten.length := by
    rw [List.map_cons, List.flatten_cons]
    have he : encodeUnit EVAL_SUBTYPE_EVAL = [0] := rfl
    rw [he]
    simp
  have hlen6 : 6 ≤ (evalBuffer st.byteConfig expression).length := by
    rw [hsh]
    simp only [List.length_cons, List.length_append, uint32Bytes_length]
    omega
  rcases hopt : st.lastBreakpointHit with _ | bp
  · rw [hopt] at hbp
    cases hbp
  · obtain ⟨st2, evs2, frags2, res2, hA, hP, hB, hC, hD, hE, hF, hG⟩ :=
      evalSendLoop_spec sendOk st.maxMessageSize hmax
        (evalBuffer st.byteConfig expression).length
        (evalBuffer st.byteConfig expression) 0
        { st with evalsPending := st.evalsPending + 1 }
        (by omega)
    have hoff0 : 0 < (evalBuffer st.byteConfig expression).length - 1 := by omega
    refine ⟨res2, st2, evs2, frags2, ?_, hsh, ?_, (hD hoff0).2, hB, ?_, ?_, hF, ?_⟩
    · rw [evaluate,
        if_neg (show ¬st.lastBreakpointHit.isNone = true by
          rw [hopt]; exact Bool.false_ne_true)]
      dsimp only
      rw [hA]
    · rw [hP]
    · rw [(hD hoff0).1, List.drop_zero, Nat.sub_zero]
    · rw [(hD hoff0).1, List.drop_zero, Nat.sub_zero,
        getD_zero_take _ _ (lt_min (by omega) (by omega))]
      rw [hsh]
      rfl
    · have hg := hG hoff0
      rw [List.drop_zero] at hg
      exact hg


/-- A halted state whose session allows 6-byte messages (spec scenario 5). -/
def c2State : HandlerState := { c7Halted with maxMessageSize := 6 }

/-- The expression "foobar" as UTF-16 code units. -/
def c2Expr : List Nat := [102, 111, 111, 98, 97, 114]

/-- A halted state whose session allows only 1-byte messages. -/
def c2DivState : HandlerState := { c7Halted with maxMessageSize := 1 }

/-- C2 counterexample: with `max_message_size = 1` (the claim quantifies over
every `max_message_size`) the fragmentation `while` loop of `evaluate` never
advances — `offset += clamped - 1` adds zero — so `evaluate` diverges instead
of producing packets: the fuelled model returns `none` even with fuel for one
iteration per buffer byte. -/
theorem C2_counterexample :
    c2DivState.lastBreakpointHit.isSome = true ∧
    evaluate sendAlways c2DivState [102] = none := by decide

/-- Witness for C2 at spec scenario 5: `evaluate "foobar"` with
`max_message_size = 6` satisfies the amended theorem, and concretely sends
exactly `[EVAL, 7, 0, 0, 0, 0]`, `[EVAL_PART, f, o, o, b, a]`,
`[EVAL_PART, r]`. -/
theorem C2_witness :
    (∃ res st2 evs frags,
      evaluate sendAlways c2State c2Expr = some (res, st2, evs, frags) ∧
      evalBuffer c2State.byteConfig c2Expr =
        CLIENT.JERRY_DEBUGGER_EVAL ::
          uint32Bytes c2State.byteConfig.littleEndian
            (((EVAL_SUBTYPE_EVAL :: c2Expr).map encodeUnit).flatten.length) ++
          ((EVAL_SUBTYPE_EVAL :: c2Expr).map encodeUnit).flatten ∧
      st2.evalsPending = c2State.evalsPending + 1 ∧
      frags ≠ [] ∧
      (∀ f ∈ frags, 1 ≤ f.length ∧ f.length ≤ c2State.maxMessageSize) ∧
      frags.headD [] = (evalBuffer c2State.byteConfig c2Expr).take
        (min (evalBuffer c2State.byteConfig c2Expr).length c2State.maxMessageSize) ∧
      (frags.headD []).getD 0 0 = CLIENT.JERRY_DEBUGGER_EVAL ∧
      (∀ f ∈ frags.tail, f.getD 0 0 = CLIENT.JERRY_DEBUGGER_EVAL_PART) ∧
      frags.headD [] ++ (frags.tail.map (fun f => f.drop 1)).flatten =
        evalBuffer c2State.byteConfig c2Expr) ∧
    (evaluate sendAlways c2State c2Expr).map (fun r => r.2.2.2) =
      some [[17, 7, 0, 0, 0, 0], [18, 102, 111, 111, 98, 97], [18, 114]] :=
  ⟨C2_evaluate_fragmentation sendAlways c2State c2Expr (by decide) (by decide), by decide⟩

/-- Witness for C5's amended theorem at concrete frames. -/
theorem C5_witness :
    (onMessage delegateAll sendAlways
      (onMessage delegateAll sendAlways initialState configFrame2).state
      [SERVER.JERRY_DEBUGGER_SOURCE_CODE_END, 97]).state.byteConfig.cpointerSize = 2 ∧
    (onMessage delegateAll sendAlways initialState
      configFrame2).state.byteConfig.cpointerSize = 2 ∧
    (onMessage delegateAll sendAlways initialState
      [SERVER.JERRY_DEBUGGER_CONFIGURATION, 1, 2]).state.byteConfig.cpointerSize = 0 := by
  refine ⟨?_, ?_, ?_⟩
  · have h := (C5_cpointer_assignment delegateAll sendAlways
      (onMessage delegateAll sendAlways initialState configFrame2).state
      [SERVER.JERRY_DEBUGGER_SOURCE_CODE_END, 97]).1 (by decide)
    rw [h]
    decide
  · exact (C5_cpointer_assignment delegateAll sendAlways initialState configFrame2).2.1
      (by decide) (by decide)
  · exact (C5_cpointer_assignment delegateAll sendAlways initialState
      [SERVER.JERRY_DEBUGGER_CONFIGURATION, 1, 2]).2.2 (by decide) (by decide)

end Jerry
